import Mathlib

/-!
Shallow embedding of the recipe-to-package elaboration engine of the Bob
build tool (`pym/bob/input.py`), together with proofs about the claims of
its specification.

Modelling conventions:

* Byte strings are `List Nat` (each element one byte).  Python strings are
  Lean `String`; `str.encode("utf8")` is modelled by the list of code
  points and `len(s)` by the character count, exactly as the source pairs
  `len(script)` with `script.encode("utf8")`.
* `hashlib.sha1` is external library code.  It is modelled by `sha1`, a
  computable 20-byte digest function of the message; all structural
  properties (length 20, digest of the accumulated message) are preserved.
* Python `dict`s are insertion-ordered association lists with unique keys;
  `dict.update` preserves the position of existing keys and appends new
  ones, like CPython.
* The substitution language of `bob/stringparser.py` is not part of the
  given sources; values (`SValue`) and conditions (`CondExpr`) are
  modelled from the spec (section 4.1) as small ASTs: literals, variable
  reads and concatenation, resp. boolean literals, truthiness tests of
  substituted values, negation, `$(and,..)` and `$(or,..)`.  Every
  variable occurring in an expression is read (and thus touched) when the
  expression is substituted or evaluated, as in the spec.
* Touch tracking of `Env` chains is modelled by threading the set of
  touched names through the elaboration: reads propagate to the chain
  root, so each `prepare` invocation accumulates its own reads plus the
  reads reported by child invocations.
* Object identity of `CorePackage` instances is observable through the
  monotonically increasing `pkgId` (`uidGen` in the source): two packages
  are the same instance iff they have the same `pkgId`.
-/

namespace Bob

/-- 32-bit little-endian length prefix, `struct.pack("<I", n)`. -/
def packU32 (n : Nat) : List Nat :=
  [n % 256, n / 256 % 256, n / 65536 % 256, n / 16777216 % 256]

/-- Model of `str.encode("utf8")`: the code points of the string. -/
def strBytes (s : String) : List Nat :=
  s.data.map Char.toNat

/-- Model of `hashlib.sha1(msg).digest()`: a 20-byte digest of the message.
The real SHA1 is external library code; the model folds the message into a
160-bit accumulator and emits its 20 bytes, keeping the structural facts
the code relies on (fixed length 20, value a function of the message). -/
def sha1 (msg : List Nat) : List Nat :=
  let h := msg.foldl (fun a b => (a * 1099511628211 + b + 1) % (2 ^ 160)) (msg.length + 1)
  (List.range 20).map (fun i => h / 2 ^ (8 * i) % 256)

theorem sha1_length (msg : List Nat) : (sha1 msg).length = 20 := by
  simp [sha1]

/-! ### Association lists standing in for Python dicts -/

/-- Lookup in an insertion-ordered dict. -/
def dictGet {κ β : Type} [DecidableEq κ] : List (κ × β) → κ → Option β
  | [], _ => none
  | (k, v) :: t, n => if k = n then some v else dictGet t n

/-- `d[k] = v` on a Python dict: replace in place or append. -/
def dictSet {κ β : Type} [DecidableEq κ] (m : List (κ × β)) (k : κ) (v : β) : List (κ × β) :=
  if (m.map Prod.fst).contains k then
    m.map (fun p => if p.1 = k then (k, v) else p)
  else
    m ++ [(k, v)]

/-- `base.update(upd)` on Python dicts. -/
def dictUpdate {κ β : Type} [DecidableEq κ] (base upd : List (κ × β)) : List (κ × β) :=
  upd.foldl (fun acc p => dictSet acc p.1 p.2) base

/-- Key set of a dict. -/
def dictKeys {κ β : Type} (m : List (κ × β)) : List κ :=
  m.map Prod.fst

/-- Union of name sets, preserving first occurrences (Python set union is
modelled on lists; only membership is ever observed). -/
def listUnion (a b : List String) : List String :=
  a ++ b.filter (fun x => !a.contains x)

/-- First non-null wins in child direction (`if self.x is None: self.x = cls.x`). -/
def orDefault {α : Type} (a b : Option α) : Option α :=
  match a with
  | some v => some v
  | none => b

/-! ### Sorting dict items, `sorted(d.items())`

Python sorts the `(key, value)` tuples; since dict keys are unique the
order is the unique ascending key order, which is what `sortByKey`
computes. -/

/-- Lexicographic order on strings by code points, the order Python uses
when sorting dict items with string keys. -/
def keyLe {β : Type} (a b : String × β) : Prop :=
  a.1.data ≤ b.1.data

instance sortByKeyDecRel (β : Type) : DecidableRel (fun (a b : String × β) => keyLe a b) :=
  fun a b => inferInstanceAs (Decidable (a.1.data ≤ b.1.data))

instance sortByKeyTotal (β : Type) : IsTotal (String × β) (fun a b => keyLe a b) :=
  ⟨fun a b => le_total a.1.data b.1.data⟩

instance sortByKeyTrans (β : Type) : IsTrans (String × β) (fun a b => keyLe a b) :=
  ⟨fun _ _ _ h₁ h₂ => le_trans h₁ h₂⟩

/-- `sorted(d.items())` for a dict with unique keys. -/
def sortByKey {β : Type} (l : List (String × β)) : List (String × β) :=
  List.insertionSort (fun a b => keyLe a b) l

theorem sortByKey_perm {β : Type} (l : List (String × β)) : (sortByKey l).Perm l :=
  List.perm_insertionSort _ l

theorem sortByKey_sorted {β : Type} (l : List (String × β)) :
    (sortByKey l).Sorted (fun a b => keyLe a b) :=
  List.sorted_insertionSort _ l

/-- Two sorted association lists with the same entries and duplicate-free
keys are equal. -/
theorem sorted_nodupkeys_perm_eq {β : Type} :
    ∀ {l₁ l₂ : List (String × β)}, l₁.Perm l₂ →
      l₁.Sorted (fun a b => keyLe a b) → l₂.Sorted (fun a b => keyLe a b) →
      (l₁.map Prod.fst).Nodup → l₁ = l₂ := by
  intro l₁
  induction l₁ with
  | nil => intro l₂ hp _ _ _; exact (List.Perm.nil_eq hp)
  | cons x t₁ ih =>
    intro l₂ hp hs₁ hs₂ hnd
    cases l₂ with
    | nil => exact absurd hp.symm (by simp)
    | cons y t₂ =>
      have hnd' : x.1 ∉ t₁.map Prod.fst ∧ (t₁.map Prod.fst).Nodup := by
        rw [List.map_cons] at hnd
        exact List.nodup_cons.mp hnd
      have hxy : x = y := by
        by_contra hne
        have hyl : y ∈ x :: t₁ := hp.mem_iff.mpr (List.mem_cons_self y t₂)
        have hxl : x ∈ y :: t₂ := hp.mem_iff.mp (List.mem_cons_self x t₁)
        have hy₁ : y ∈ t₁ := by
          rcases List.mem_cons.mp hyl with h | h
          · exact absurd h.symm hne
          · exact h
        have hx₂ : x ∈ t₂ := by
          rcases List.mem_cons.mp hxl with h | h
          · exact absurd h hne
          · exact h
        have h₁ : keyLe x y := (List.pairwise_cons.mp hs₁).1 y hy₁
        have h₂ : keyLe y x := (List.pairwise_cons.mp hs₂).1 x hx₂
        have hdata : x.1.data = y.1.data := le_antisymm h₁ h₂
        have hkey : x.1 = y.1 := by
          cases hx : x.1 with
          | mk dx =>
            cases hy : y.1 with
            | mk dy =>
              rw [hx, hy] at hdata
              simp only [String.data] at hdata
              exact congrArg String.mk hdata
        have hk : x.1 ∈ t₁.map Prod.fst := by
          rw [hkey]
          exact List.mem_map.mpr ⟨y, hy₁, rfl⟩
        exact hnd'.1 hk
      subst hxy
      have hp' : t₁.Perm t₂ := (List.perm_cons x).mp hp
      have := ih hp' (List.pairwise_cons.mp hs₁).2 (List.pairwise_cons.mp hs₂).2 hnd'.2
      rw [this]

theorem sortByKey_eq_of_perm {β : Type} {l₁ l₂ : List (String × β)}
    (h : l₁.Perm l₂) (hnd : (l₁.map Prod.fst).Nodup) :
    sortByKey l₁ = sortByKey l₂ := by
  refine sorted_nodupkeys_perm_eq ?_ (sortByKey_sorted l₁) (sortByKey_sorted l₂) ?_
  · exact (sortByKey_perm l₁).trans (h.trans (sortByKey_perm l₂).symm)
  · exact ((sortByKey_perm l₁).map Prod.fst).nodup_iff.mpr hnd

/-! ### The two-part digest hasher, `DigestHasher` (input.py lines 78-112) -/

/-- `DigestHasher`: recipe-internal part and host-fingerprint part. -/
structure DigestHasher where
  recipes : List Nat
  host : List Nat

namespace DigestHasher

/-- Fresh hasher. -/
def new : DigestHasher := ⟨[], []⟩

/-- Add bytes to recipe-internal part of digest. -/
def update (h : DigestHasher) (real : List Nat) : DigestHasher :=
  ⟨h.recipes ++ real, h.host⟩

/-- Add bytes of fingerprint to host part of digest. -/
def fingerprint (h : DigestHasher) (imag : List Nat) : DigestHasher :=
  ⟨h.recipes, h.host ++ imag⟩

/-- Calculate final digest value.  If no host fingerprints were added only
the recipe-internal digest is emitted, otherwise the fingerprint digest is
appended (backwards compatible with Bob before 0.15). -/
def digest (h : DigestHasher) : List Nat :=
  if h.host ≠ [] then sha1 h.recipes ++ sha1 h.host else sha1 h.recipes

/-- Extract recipe-internal digest part. -/
def sliceRecipes (d : List Nat) : List Nat := d.take 20

/-- Extract host fingerprint digest part (if any). -/
def sliceHost (d : List Nat) : List Nat := d.drop 20

end DigestHasher

/-! ### Errors

`ParseError` (from `bob/errors.py`, not under the given sources).
Modelled from the spec: an error message plus the frame stack attached as
the exception unwinds (`pushFrame`). -/

structure ParseError where
  msg : String
  frames : List String

/-- Attach a frame while the error propagates upwards. -/
def ParseError.pushFrame (e : ParseError) (f : String) : ParseError :=
  ⟨e.msg, f :: e.frames⟩

/-- Result type of fallible elaboration code. -/
abbrev Res (α : Type) := Except ParseError α

/-- Push a frame onto the error of a failed computation. -/
def framed {α : Type} (f : String) : Res α → Res α
  | .error e => .error (e.pushFrame f)
  | .ok v => .ok v

/-! ### Glob lists (`__maybeGlob` / `checkGlobList`)

`fnmatch.fnmatchcase` is modelled for the `*`/`?`/literal forms (character
classes are not used by the claims).  On wildcard-free patterns it
coincides with the plain equality compare of `__maybeGlob`. -/

def globMatch : List Char → List Char → Bool
  | [], [] => true
  | [], _ :: _ => false
  | '*' :: ps, cs => cs.tails.any (fun t => globMatch ps t)
  | '?' :: _, [] => false
  | '?' :: ps, _ :: cs => globMatch ps cs
  | _ :: _, [] => false
  | p :: ps, c :: cs => (p = c) && globMatch ps cs

/-- `fnmatch.fnmatchcase(name, pattern)`. -/
def fnmatchcase (name pattern : String) : Bool :=
  globMatch pattern.data name.data

/-- One predicate of a glob list (`__maybeGlob`): a `!`-negated pattern
forces `False` on match, a positive pattern forces `True` on match,
otherwise the previous value is kept. -/
def applyGlobPred (prev : Bool) (pred : String) (elem : String) : Bool :=
  if pred.startsWith "!" then
    if fnmatchcase elem (pred.drop 1) then false else prev
  else
    if fnmatchcase elem pred then true else prev

/-- Modelled from the spec: `checkGlobList` of `bob/stringparser.py` (not
under the given sources) folds the glob predicates left to right starting
from `False`; an absent glob list accepts everything. -/
def checkGlobList (elem : String) (globs : Option (List String)) : Bool :=
  match globs with
  | none => true
  | some l => l.foldl (fun prev pred => applyGlobPred prev pred elem) false

/-- `mergeFilter` (input.py lines 1653-1658). -/
def mergeFilter (left right : Option (List String)) : Option (List String) :=
  match left, right with
  | none, r => r
  | l, none => l
  | some l, some r => some (l ++ r)

/-! ### The substitution language

Modelled from the spec (section 4.1): `bob/stringparser.py` is not under
the given sources.  String values are ASTs of literals, variable reads and
concatenation; conditions add boolean literals, truthiness, `not`, `and`
and `or`.  All arguments of a function call are substituted before the
call, so every variable occurring in an expression is read when it is
evaluated. -/

inductive SValue where
  | lit (s : String)
  | var (name : String)
  | cat (a b : SValue)

inductive CondExpr where
  | lit (b : Bool)
  | str (v : SValue)
  | not (c : CondExpr)
  | and (a b : CondExpr)
  | or (a b : CondExpr)

/-- Scoped string environment (`Env` of `bob/stringparser.py`, modelled
from the spec): an insertion-preserving mapping from names to values.
Touch tracking is threaded separately through the elaboration. -/
structure Env where
  vars : List (String × String)

instance : Inhabited Env := ⟨⟨[]⟩⟩

def Env.get (e : Env) (n : String) : Option String :=
  dictGet e.vars n

/-- `env.update(d)` / `env.derive(d)`: the derived scope behaves like the
parent overlaid with `d`. -/
def Env.update (e : Env) (d : List (String × String)) : Env :=
  ⟨dictUpdate e.vars d⟩

/-- `env[k] = v`. -/
def Env.set (e : Env) (k v : String) : Env :=
  ⟨dictSet e.vars k v⟩

/-- `env.prune(nameSet)`: retain only the listed names. -/
def Env.prune (e : Env) (names : List String) : Env :=
  ⟨e.vars.filter (fun p => names.contains p.1)⟩

/-- `env.filter(globList)`: retain names accepted by the glob list; an
absent glob list keeps the environment as is. -/
def Env.filterGlobs (e : Env) (globs : Option (List String)) : Env :=
  match globs with
  | none => e
  | some gl => ⟨e.vars.filter (fun p => checkGlobList p.1 (some gl))⟩

/-- Substitute a value against an environment; reading an undefined
variable is an error. -/
def Env.substitute (e : Env) : SValue → Res String
  | .lit s => .ok s
  | .var n =>
      match e.get n with
      | some v => .ok v
      | none => .error ⟨"Unknown variable: " ++ n, []⟩
  | .cat a b =>
      match e.substitute a with
      | .error er => .error er
      | .ok x =>
          match e.substitute b with
          | .error er => .error er
          | .ok y => .ok (x ++ y)

/-- Variables read when substituting a value. -/
def svalReads : SValue → List String
  | .lit _ => []
  | .var n => [n]
  | .cat a b => svalReads a ++ svalReads b

/-- Truthiness of a substituted string: empty, `0` and `false` are false. -/
def strIsTrue (s : String) : Bool :=
  !(s = "" || s = "0" || s = "false")

/-- Evaluate a condition to a boolean. -/
def Env.evaluate (e : Env) : CondExpr → Res Bool
  | .lit b => .ok b
  | .str v =>
      match e.substitute v with
      | .error er => .error er
      | .ok s => .ok (strIsTrue s)
  | .not c =>
      match e.evaluate c with
      | .error er => .error er
      | .ok b => .ok (!b)
  | .and a b =>
      match e.evaluate a with
      | .error er => .error er
      | .ok x =>
          match e.evaluate b with
          | .error er => .error er
          | .ok y => .ok (x && y)
  | .or a b =>
      match e.evaluate a with
      | .error er => .error er
      | .ok x =>
          match e.evaluate b with
          | .error er => .error er
          | .ok y => .ok (x || y)

/-- Variables read when evaluating a condition. -/
def condReads : CondExpr → List String
  | .lit _ => []
  | .str v => svalReads v
  | .not c => condReads c
  | .and a b => condReads a ++ condReads b
  | .or a b => condReads a ++ condReads b

/-- `env.evaluate(cond, ..)` where an absent condition is true. -/
def evalCondOpt (e : Env) : Option CondExpr → Res Bool
  | none => .ok true
  | some c => e.evaluate c

/-- Variables read when evaluating an optional condition. -/
def condOptReads : Option CondExpr → List String
  | none => []
  | some c => condReads c

/-! ### The immutable core step graph

`CoreStep`, `CoreTool`, `CoreSandbox` and `CoreRef` (input.py lines
383-480, 547-575, 624-807, 1153-1360).  The Python objects carry back
references (`coreStep.corePackage`, and a provided tool points at the
package step that provides it); the model inlines into every step the
package data it reads (`packageName`, `pkgTools`, `pkgSandbox`,
`fingerprintMask`, the recipe digest script for its kind, the tool-key
set of its kind and the `sandboxInvariant` policy), and keeps the
provided values beside the package step (`ProvidedTool`,
`ProvidedSandbox`) instead of storing a self reference inside it.  The
overlay payload of `CoreRef` (`diffTools`/`diffSandbox`) is only consumed
by the user-facing deref layer, which is outside the modelled core, and is
dropped; `stackAdd` is kept for error messages. -/

inductive StepKind where
  | checkout
  | build
  | package
deriving DecidableEq

/-- A checkout SCM, reduced to the data the elaboration reads: its
directory, its `if` condition, its determinism and its digest-script
contribution. -/
structure Scm where
  dir : String
  scmIf : Option CondExpr
  deterministic : Bool
  digestScript : String

/-- `fingerprintIf`: absent (`None`), a literal boolean, or an expression. -/
inductive FpIf where
  | absent
  | flag (b : Bool)
  | expr (c : CondExpr)

mutual

inductive CoreStep where
  | mk (kind : StepKind) (packageName : String) (isValid : Bool)
       (deterministic : Bool) (digestEnv : List (String × String))
       (env : List (String × String)) (args : List CoreRef)
       (scmList : List Scm) (pkgTools : List (String × CoreTool))
       (toolKeys : List String) (pkgSandbox : Option CoreSandbox)
       (fingerprintMask : Nat) (sandboxInvariant : Bool)
       (digestScript : Option String) (variantId : List Nat)

inductive CoreTool where
  | mk (coreStep : CoreStep) (path : String) (libs : List String)
       (netAccess : Bool) (environment : List (String × String))
       (fingerprintScript : String) (fingerprintIf : FpIf)

inductive CoreSandbox where
  | mk (coreStep : CoreStep) (enabled : Bool) (paths : List String)
       (mounts : List (String × String × List String))
       (environment : List (String × String))

inductive CoreRef where
  | mk (destination : CoreStep) (stackAdd : List String)

end

namespace CoreStep

def kind : CoreStep → StepKind
  | .mk k _ _ _ _ _ _ _ _ _ _ _ _ _ _ => k

def packageName : CoreStep → String
  | .mk _ n _ _ _ _ _ _ _ _ _ _ _ _ _ => n

def isValid : CoreStep → Bool
  | .mk _ _ v _ _ _ _ _ _ _ _ _ _ _ _ => v

def deterministic : CoreStep → Bool
  | .mk _ _ _ d _ _ _ _ _ _ _ _ _ _ _ => d

def digestEnv : CoreStep → List (String × String)
  | .mk _ _ _ _ de _ _ _ _ _ _ _ _ _ _ => de

def env : CoreStep → List (String × String)
  | .mk _ _ _ _ _ e _ _ _ _ _ _ _ _ _ => e

def args : CoreStep → List CoreRef
  | .mk _ _ _ _ _ _ a _ _ _ _ _ _ _ _ => a

def scmList : CoreStep → List Scm
  | .mk _ _ _ _ _ _ _ s _ _ _ _ _ _ _ => s

def pkgTools : CoreStep → List (String × CoreTool)
  | .mk _ _ _ _ _ _ _ _ t _ _ _ _ _ _ => t

def toolKeys : CoreStep → List String
  | .mk _ _ _ _ _ _ _ _ _ tk _ _ _ _ _ => tk

def pkgSandbox : CoreStep → Option CoreSandbox
  | .mk _ _ _ _ _ _ _ _ _ _ sb _ _ _ _ => sb

def fingerprintMask : CoreStep → Nat
  | .mk _ _ _ _ _ _ _ _ _ _ _ m _ _ _ => m

def sandboxInvariant : CoreStep → Bool
  | .mk _ _ _ _ _ _ _ _ _ _ _ _ i _ _ => i

def digestScript : CoreStep → Option String
  | .mk _ _ _ _ _ _ _ _ _ _ _ _ _ ds _ => ds

def variantId : CoreStep → List Nat
  | .mk _ _ _ _ _ _ _ _ _ _ _ _ _ _ v => v

end CoreStep

def CoreTool.coreStep : CoreTool → CoreStep
  | .mk s _ _ _ _ _ _ => s

def CoreTool.path : CoreTool → String
  | .mk _ p _ _ _ _ _ => p

def CoreTool.libs : CoreTool → List String
  | .mk _ _ l _ _ _ _ => l

def CoreTool.netAccess : CoreTool → Bool
  | .mk _ _ _ n _ _ _ => n

def CoreTool.environment : CoreTool → List (String × String)
  | .mk _ _ _ _ e _ _ => e

def CoreTool.fingerprintScript : CoreTool → String
  | .mk _ _ _ _ _ f _ => f

def CoreTool.fingerprintIf : CoreTool → FpIf
  | .mk _ _ _ _ _ _ f => f

def CoreSandbox.coreStep : CoreSandbox → CoreStep
  | .mk s _ _ _ _ => s

def CoreSandbox.enabled : CoreSandbox → Bool
  | .mk _ e _ _ _ => e

def CoreSandbox.paths : CoreSandbox → List String
  | .mk _ _ p _ _ => p

def CoreSandbox.mounts : CoreSandbox → List (String × String × List String)
  | .mk _ _ _ m _ => m

def CoreSandbox.environment : CoreSandbox → List (String × String)
  | .mk _ _ _ _ e => e

/-- `CoreRef.refGetDestination` (the destination of a flattened ref). -/
def CoreRef.refGetDestination : CoreRef → CoreStep
  | .mk d _ => d

/-- `CoreRef.refGetStack`. -/
def CoreRef.refGetStack : CoreRef → List String
  | .mk _ s => s

instance : Inhabited CoreStep :=
  ⟨CoreStep.mk .checkout "" false false [] [] [] [] [] [] none 0 false none []⟩

namespace CoreStep

/-- `CoreStep.getTools`: the package tools restricted to the tool keys of
this step kind; invalid steps have no tools. -/
def getTools (s : CoreStep) : List (String × CoreTool) :=
  if s.isValid then s.pkgTools.filter (fun p => s.toolKeys.contains p.1) else []

/-- `CoreStep.getSandbox`: forcing the sandbox is only allowed if the
`sandboxInvariant` policy is not set. -/
def getSandbox (s : CoreStep) (forceSandbox : Bool) : Option CoreSandbox :=
  let force := forceSandbox && !s.sandboxInvariant
  match s.pkgSandbox with
  | some sb => if (sb.enabled || force) && s.isValid then some sb else none
  | none => none

def isCheckoutStep (s : CoreStep) : Bool :=
  match s.kind with
  | .checkout => true
  | _ => false

def isPackageStep (s : CoreStep) : Bool :=
  match s.kind with
  | .package => true
  | _ => false

/-- `CoreStep.isFingerprinted`. -/
def isFingerprinted (s : CoreStep) : Bool :=
  !s.isCheckoutStep && s.fingerprintMask != 0

/-- `CoreStep.getAllDepCoreSteps`. -/
def getAllDepCoreSteps (s : CoreStep) (forceSandbox : Bool) : List CoreStep :=
  s.args.map CoreRef.refGetDestination
    ++ (sortByKey s.getTools).map (fun p => p.2.coreStep)
    ++ (match s.getSandbox forceSandbox with
        | some sb => [sb.coreStep]
        | none => [])

/-- The `isDeterministic` method: `CoreCheckoutStep` additionally requires
all SCMs to be deterministic, the other kinds return the stored flag. -/
def isDeterministicM (s : CoreStep) : Bool :=
  s.deterministic && (if s.isCheckoutStep then s.scmList.all (fun scm => scm.deterministic) else true)

/-- The hasher accumulated by `CoreStep.getDigest` (input.py lines
701-739) before the final `h.digest()`. -/
def getDigestHasher (s : CoreStep) (calculate : CoreStep → List Nat)
    (forceSandbox : Bool) : DigestHasher :=
  let h := DigestHasher.new
  -- if self.isFingerprinted() and self.getSandbox():
  let h :=
    match s.getSandbox false with
    | some sb =>
        if s.isFingerprinted then
          h.fingerprint (DigestHasher.sliceRecipes (calculate sb.coreStep))
        else h
    | none => h
  -- sandbox = not sandboxInvariant and self.getSandbox(forceSandbox)
  let h :=
    match (if !s.sandboxInvariant then s.getSandbox forceSandbox else none) with
    | some sandbox =>
        let h := h.update (DigestHasher.sliceRecipes (calculate sandbox.coreStep))
        let h := h.update (packU32 sandbox.paths.length)
        sandbox.paths.foldl (fun (h : DigestHasher) (p : String) => (h.update (packU32 p.length)).update (strBytes p)) h
    | none => h.update (List.replicate 20 0)
  -- script = self.getDigestScript()
  let h :=
    match s.digestScript with
    | some sc =>
        if sc = "" then h.update [0, 0, 0, 0]
        else (h.update (packU32 sc.length)).update (strBytes sc)
    | none => h.update [0, 0, 0, 0]
  let h := h.update (packU32 s.getTools.length)
  let h := (sortByKey s.getTools).foldl (fun (h : DigestHasher) (nt : String × CoreTool) =>
      let tool := nt.2
      let h := h.update (DigestHasher.sliceRecipes (calculate tool.coreStep))
      let h := h.update (packU32 tool.path.length ++ packU32 tool.libs.length)
      let h := h.update (strBytes tool.path)
      tool.libs.foldl (fun (h : DigestHasher) (l : String) => (h.update (packU32 l.length)).update (strBytes l)) h) h
  let h := h.update (packU32 s.digestEnv.length)
  let h := (sortByKey s.digestEnv).foldl (fun (h : DigestHasher) (kv : String × String) =>
      (h.update (packU32 kv.1.length ++ packU32 kv.2.length)).update (strBytes (kv.1 ++ kv.2))) h
  let args := (s.args.map CoreRef.refGetDestination).filter (fun a => a.isValid)
  let h := h.update (packU32 args.length)
  args.foldl (fun (h : DigestHasher) (arg : CoreStep) =>
      let a := calculate arg
      (h.update (DigestHasher.sliceRecipes a)).fingerprint (DigestHasher.sliceHost a)) h

/-- `CoreStep.getDigest`: the accumulated hasher`s digest. -/
def getDigest (s : CoreStep) (calculate : CoreStep → List Nat)
    (forceSandbox : Bool) : List Nat :=
  (s.getDigestHasher calculate forceSandbox).digest

end CoreStep

/-- Construct a `CoreStep` (the `CoreStep.__init__` protocol): the
deterministic flag conjoins the input determinism with the determinism of
all dependency core steps (sandbox forced), then the variant-id is
computed from the stored fields via `getDigest` with the stored
variant-ids of the dependencies. -/
def mkCoreStep (kind : StepKind) (packageName : String) (isValid : Bool)
    (detInput : Bool) (digestEnv env : List (String × String)) (args : List CoreRef)
    (scmList : List Scm) (pkgTools : List (String × CoreTool)) (toolKeys : List String)
    (pkgSandbox : Option CoreSandbox) (fingerprintMask : Nat) (sandboxInvariant : Bool)
    (digestScript : Option String) : CoreStep :=
  let pre := CoreStep.mk kind packageName isValid detInput digestEnv env args scmList
      pkgTools toolKeys pkgSandbox fingerprintMask sandboxInvariant digestScript []
  let det := detInput && (pre.getAllDepCoreSteps true).all CoreStep.isDeterministicM
  let detStep := CoreStep.mk kind packageName isValid det digestEnv env args scmList
      pkgTools toolKeys pkgSandbox fingerprintMask sandboxInvariant digestScript []
  CoreStep.mk kind packageName isValid det digestEnv env args scmList pkgTools toolKeys
    pkgSandbox fingerprintMask sandboxInvariant digestScript
    (detStep.getDigest CoreStep.variantId false)

/-- A tool provided by a package step (`CoreTool` whose `coreStep` is the
providing package step itself; the step is kept beside it, see above). -/
structure ProvidedTool where
  path : String
  libs : List String
  netAccess : Bool
  environment : List (String × String)
  fingerprintScript : String
  fingerprintIf : FpIf

/-- A sandbox provided by a package step (`CoreSandbox` whose `coreStep`
is the providing package step itself). -/
structure ProvidedSandbox where
  enabled : Bool
  paths : List String
  mounts : List (String × String × List String)
  environment : List (String × String)

/-- Turn a provided tool into the `CoreTool` seen by a consumer, attaching
the provider's package step. -/
def ProvidedTool.toCoreTool (t : ProvidedTool) (step : CoreStep) : CoreTool :=
  CoreTool.mk step t.path t.libs t.netAccess t.environment t.fingerprintScript t.fingerprintIf

/-- Turn a provided sandbox into the `CoreSandbox` seen by a consumer. -/
def ProvidedSandbox.toCoreSandbox (sb : ProvidedSandbox) (step : CoreStep) : CoreSandbox :=
  CoreSandbox.mk step sb.enabled sb.paths sb.mounts sb.environment

/-- `CoreStep.getResultId` (input.py lines 741-790).  The provided values
live beside the package step in the model; `tool.coreStep.variantId` and
`providedSandbox.coreStep.variantId` are the package step's own
variant-id, since the provider registers itself as their core step. -/
def getResultId (step : CoreStep) (providedEnv : List (String × String))
    (providedTools : List (String × ProvidedTool)) (providedDeps : List CoreRef)
    (providedSandbox : Option ProvidedSandbox) : List Nat :=
  let m := step.variantId
  -- providedEnv
  let m := m ++ packU32 providedEnv.length
  let m := (sortByKey providedEnv).foldl (fun (m : List Nat) (kv : String × String) =>
      m ++ packU32 kv.1.length ++ packU32 kv.2.length ++ strBytes (kv.1 ++ kv.2)) m
  -- providedTools
  let m := m ++ packU32 providedTools.length
  let m := (sortByKey providedTools).foldl (fun (m : List Nat) (nt : String × ProvidedTool) =>
      let name := nt.1
      let tool := nt.2
      let m := m ++ step.variantId
      let m := m ++ packU32 name.length ++ packU32 tool.path.length ++ packU32 tool.libs.length
      let m := m ++ strBytes name ++ strBytes tool.path
      let m := tool.libs.foldl (fun (m : List Nat) (l : String) => m ++ packU32 l.length ++ strBytes l) m
      let m := m ++ (if tool.netAccess then [1] else [0]) ++ packU32 tool.environment.length
      let m := (sortByKey tool.environment).foldl (fun (m : List Nat) (kv : String × String) =>
          m ++ packU32 kv.1.length ++ packU32 kv.2.length ++ strBytes (kv.1 ++ kv.2)) m
      m ++ packU32 tool.fingerprintScript.length ++ strBytes tool.fingerprintScript) m
  -- provideDeps
  let m := m ++ packU32 providedDeps.length
  let m := providedDeps.foldl (fun (m : List Nat) (dep : CoreRef) => m ++ dep.refGetDestination.variantId) m
  -- sandbox
  let m :=
    match providedSandbox with
    | some sb =>
        let m := m ++ step.variantId
        let m := m ++ packU32 sb.paths.length
        let m := sb.paths.foldl (fun (m : List Nat) (p : String) => m ++ packU32 p.length ++ strBytes p) m
        let m := m ++ packU32 sb.mounts.length
        let m := sb.mounts.foldl (fun (m : List Nat) (mnt : String × String × List String) =>
            m ++ packU32 mnt.1.length ++ packU32 mnt.2.1.length ++ packU32 mnt.2.2.length
              ++ strBytes (mnt.1 ++ mnt.2.1 ++ String.join mnt.2.2)) m
        let m := m ++ packU32 sb.environment.length
        (sortByKey sb.environment).foldl (fun (m : List Nat) (kv : String × String) =>
            m ++ packU32 kv.1.length ++ packU32 kv.2.length ++ strBytes (kv.1 ++ kv.2)) m
    | none => m ++ List.replicate 20 0
  sha1 m


/-! ### Plugin states, packages, matchers and elaboration state -/

/-- Plugin state trackers (`PluginState`).  Plugins are outside the
modelled core; states are inert values compared for equality, and the
default `copy`/`onEnter`/`onUse`/`onFinish` hooks change nothing. -/
abbrev States := List (String × String)

/-- `CorePackage` (input.py lines 1383-1429).  The provided values of the
package step are kept here beside it (see the note on the step knot); the
`internalRef` overlay is part of the unmodelled deref layer. -/
structure CorePackage where
  recipeName : String
  packageName : String
  tools : List (String × CoreTool)
  sandbox : Option CoreSandbox
  directDepSteps : List CoreRef
  indirectDepSteps : List CoreRef
  states : States
  pkgId : Nat
  fingerprintMask : Nat
  checkoutStep : CoreStep
  buildStep : CoreStep
  packageStep : CoreStep
  providedEnv : List (String × String)
  providedTools : List (String × ProvidedTool)
  providedDeps : List CoreRef
  providedSandbox : Option ProvidedSandbox

instance : Inhabited CorePackage :=
  ⟨⟨"", "", [], none, [], [], [], 0, 0, default, default, default, [], [], [], none⟩⟩

/-- Name of the package. -/
def CorePackage.getName (p : CorePackage) : String := p.packageName

/-- `getCorePackageStep`. -/
def CorePackage.getCorePackageStep (p : CorePackage) : CoreStep := p.packageStep

/-- The Result-Id of a package: `packageCoreStep.getResultId()`. -/
def CorePackage.resultId (p : CorePackage) : List Nat :=
  getResultId p.packageStep p.providedEnv p.providedTools p.providedDeps p.providedSandbox

/-- `PackageMatcher` (input.py lines 2498-2525): the memoization key of an
elaborated variant. -/
structure PackageMatcher where
  corePackage : CorePackage
  env : List (String × Option String)
  tools : List (String × Option (List Nat))
  states : States
  sandbox : Option (List Nat)
  subTreePackages : List String

instance : Inhabited PackageMatcher := ⟨⟨default, [], [], [], none, []⟩⟩

/-- `PackageMatcher.__init__`: record the touched subset of the input
environment, the variant-ids of the touched input tools, the states and
the input sandbox variant-id. -/
def mkPackageMatcher (corePackage : CorePackage) (envVars : List (String × String))
    (toolVars : List (String × CoreTool)) (touchedEnv touchedTools : List String)
    (states : States) (sandbox : Option CoreSandbox) (subTree : List String) :
    PackageMatcher :=
  ⟨corePackage,
   touchedEnv.map (fun n => (n, dictGet envVars n)),
   touchedTools.map (fun n => (n, (dictGet toolVars n).map (fun t => t.coreStep.variantId))),
   states,
   sandbox.map (fun sb => sb.coreStep.variantId),
   subTree⟩

/-- `PackageMatcher.matches`. -/
def PackageMatcher.matches (m : PackageMatcher) (inputEnv : List (String × String))
    (inputTools : List (String × CoreTool)) (inputStates : States)
    (inputSandbox : Option CoreSandbox) : Bool :=
  m.env.all (fun nv => nv.2 == dictGet inputEnv nv.1) &&
  m.tools.all (fun nt => nt.2 == (dictGet inputTools nt.1).map (fun t => t.coreStep.variantId)) &&
  (m.sandbox == inputSandbox.map (fun sb => sb.coreStep.variantId)) &&
  (m.states == inputStates)

/-- The first matcher of the list that matches the call-site inputs (the
loop at the top of `Recipe.prepare`). -/
def memoFind (ms : List PackageMatcher) (inputEnv : List (String × String))
    (inputTools : List (String × CoreTool)) (inputStates : States)
    (inputSandbox : Option CoreSandbox) : Option PackageMatcher :=
  ms.find? (fun m => m.matches inputEnv inputTools inputStates inputSandbox)

/-- The mutable elaboration state: each recipe`s `__corePackagesByMatch`
and `__corePackagesById`, and the `uidGen` counter. -/
structure ElabState where
  matchers : List (String × List PackageMatcher)
  byId : List (String × List (List Nat × CorePackage))
  nextUid : Nat

/-- The state before any elaboration. -/
def ElabState.initial : ElabState := ⟨[], [], 0⟩

/-- The matcher list of a recipe (most recent first). -/
def stateMatchers (st : ElabState) (name : String) : List PackageMatcher :=
  (dictGet st.matchers name).getD []

/-- The Result-Id registry of a recipe. -/
def stateById (st : ElabState) (name : String) : List (List Nat × CorePackage) :=
  (dictGet st.byId name).getD []

/-- `DepTracker` (input.py lines 1740-1761). -/
structure DepTracker where
  item : CoreRef
  isNew : Bool
  usedResult : Bool

/-! ### Recipes -/

/-- `AbstractTool`: the tool template of `provideTools`. -/
structure AbstractTool where
  path : SValue
  libs : List SValue
  netAccess : Bool
  environment : List (String × SValue)
  fingerprintScript : String
  fingerprintIf : FpIf

/-- `AbstractTool.prepare`: create the concrete tool by substituting the
defining package`s environment.  The providing package step is attached by
the consumer (see `ProvidedTool`). -/
def AbstractTool.prepare (t : AbstractTool) (env : Env) : Res ProvidedTool :=
  match env.substitute t.path with
  | .error e => .error e
  | .ok path =>
      match (t.libs.mapM (fun l => env.substitute l) : Res (List String)) with
      | .error e => .error e
      | .ok libs =>
          match (t.environment.mapM (fun kv =>
              (env.substitute kv.2).map (fun v => (kv.1, v))) :
              Res (List (String × String))) with
          | .error e => .error e
          | .ok environment =>
              .ok ⟨path, libs, t.netAccess, environment, t.fingerprintScript, t.fingerprintIf⟩

/-- Variables read when preparing a tool. -/
def abstractToolReads (t : AbstractTool) : List String :=
  svalReads t.path ++ t.libs.flatMap svalReads ++ t.environment.flatMap (fun kv => svalReads kv.2)

/-- The `provideSandbox` specification of a recipe. -/
structure SandboxSpec where
  paths : List String
  mounts : List (SValue × SValue × List String)
  environment : List (String × SValue)

/-- One parsed dependency (`Recipe.Dependency.__init__`). -/
structure Dependency where
  recipe : String
  envOverride : List (String × String)
  provideGlobal : Bool
  use : List String
  useEnv : Bool
  useTools : Bool
  useBuildResult : Bool
  useDeps : Bool
  useSandbox : Bool
  condition : Option CondExpr

/-- Build a `Dependency` from the parser data. -/
def mkDependency (recipe : String) (env : List (String × String)) (fwd : Bool)
    (use : List String) (cond : Option CondExpr) : Dependency :=
  ⟨recipe, env, fwd, use, use.contains "environment", use.contains "tools",
   use.contains "result", use.contains "deps", use.contains "sandbox", cond⟩

/-- A raw `depends` entry: either a plain recipe name or a record that may
override environment/forward/use, add an `if` condition, and either name a
recipe or nest further entries. -/
inductive RawDep where
  | str (name : String)
  | record (name : Option String) (depends : Option (List RawDep))
      (environment : Option (List (String × String)))
      (forward : Option Bool) (use : Option (List String))
      (condIf : Option CondExpr)

mutual

/-- `Recipe.Dependency.__parseEntry` (input.py lines 1786-1808).  Recipe
names are validated non-empty upstream, so the Python truthiness test of
`name` is a presence test here. -/
def parseEntry (dep : RawDep) (env : List (String × String)) (fwd : Bool)
    (use : List String) (cond : Option CondExpr) : Res (List Dependency) :=
  match dep with
  | .str name => .ok [mkDependency name env fwd use cond]
  | .record name depends environment forward use0 condIf =>
      let env :=
        match environment with
        | some envOverride => if envOverride.isEmpty then env else dictUpdate env envOverride
        | none => env
      let fwd := forward.getD fwd
      let use := use0.getD use
      let cond :=
        match condIf with
        | some newCond =>
            some (match cond with
                  | some c => CondExpr.and c newCond
                  | none => newCond)
        | none => cond
      match name with
      | some n =>
          if depends.isSome then
            .error ⟨"A dependency must not use 'name' and 'depends' at the same time!", []⟩
          else
            .ok [mkDependency n env fwd use cond]
      | none =>
          match depends with
          | some ds => parseEntriesGo ds env fwd use cond
          | none => .error ⟨"Either 'name' or 'depends' required for dependencies!", []⟩

/-- Flatten a list of raw entries. -/
def parseEntriesGo (deps : List RawDep) (env : List (String × String)) (fwd : Bool)
    (use : List String) (cond : Option CondExpr) : Res (List Dependency) :=
  match deps with
  | [] => .ok []
  | d :: ds =>
      match parseEntry d env fwd use cond with
      | .error e => .error e
      | .ok l =>
          match parseEntriesGo ds env fwd use cond with
          | .error e => .error e
          | .ok ls => .ok (l ++ ls)

end

/-- `Recipe.Dependency.parseEntries` with its default inherited values. -/
def parseEntries (deps : List RawDep) : Res (List Dependency) :=
  parseEntriesGo deps [] false ["result", "deps"] none

/-- The policy switches read by the modelled core. -/
structure Policies where
  mergeEnvironment : Bool
  uniqueDependency : Bool
  allRelocatable : Bool
  sandboxInvariant : Bool

/-- A parsed recipe or class after `Recipe.__init__` (input.py lines
1866-1948), restricted to the fields the elaboration reads.  Plugin
properties, layers and the `multiPackage` anonymous base class are outside
the modelled core; scripts carry their include-resolved digest scripts
directly. -/
structure Recipe where
  packageName : String
  baseName : String
  inherit : List String
  deps : List Dependency
  filterEnv : Option (List String)
  filterTools : Option (List String)
  filterSandbox : Option (List String)
  root : Option Bool
  provideTools : List (String × AbstractTool)
  provideVars : List (String × SValue)
  provideDeps : List String
  provideSandbox : Option SandboxSpec
  varSelf : List (String × SValue)
  varPrivate : List (String × SValue)
  metaEnv : List (String × String)
  checkoutVars : List String
  checkoutVarsWeak : List String
  buildVars : List String
  buildVarsWeak : List String
  packageVars : List String
  packageVarsWeak : List String
  toolDepCheckout : List String
  toolDepBuild : List String
  toolDepPackage : List String
  shared : Option Bool
  relocatable : Option Bool
  checkoutScript : Option String
  checkoutDigestScript : Option String
  checkoutSCMs : List Scm
  checkoutAsserts : List String
  buildScript : Option String
  buildDigestScript : Option String
  packageScript : Option String
  packageDigestScript : Option String
  fingerprintScripts : List (Option String)
  fingerprintIf : List FpIf
  checkoutDeterministic : Bool
  buildNetAccess : Option Bool
  packageNetAccess : Option Bool

/-- `joinScripts` of `bob/utils.py` (not under the given sources).
Modelled from the spec: the non-absent scripts joined by the glue, absent
when all parts are absent. -/
def joinScripts (l : List (Option String)) (glue : String) : Option String :=
  match l.filterMap id with
  | [] => none
  | parts => some (String.intercalate glue parts)

/-- A recipe after `resolveClasses` (one-shot merge of the class chain):
environment dictionaries become merge lists, scalars are defaulted and
`provideDeps` patterns are resolved to dependency names. -/
structure ResolvedRecipe where
  packageName : String
  baseName : String
  deps : List Dependency
  filterEnv : Option (List String)
  filterTools : Option (List String)
  filterSandbox : Option (List String)
  root : Bool
  shared : Bool
  relocatable : Bool
  provideTools : List (String × AbstractTool)
  provideVars : List (String × SValue)
  provideDeps : List String
  provideSandbox : Option SandboxSpec
  varSelf : List (List (String × SValue))
  varPrivate : List (List (String × SValue))
  metaEnv : List (String × String)
  checkoutVars : List String
  checkoutVarsWeak : List String
  buildVars : List String
  buildVarsWeak : List String
  packageVars : List String
  packageVarsWeak : List String
  toolDepCheckout : List String
  toolDepBuild : List String
  toolDepPackage : List String
  checkoutScript : Option String
  checkoutDigestScript : Option String
  checkoutSCMs : List Scm
  checkoutAsserts : List String
  buildScript : Option String
  buildDigestScript : Option String
  packageScript : Option String
  packageDigestScript : Option String
  fingerprintScripts : List (Option String)
  fingerprintIf : List FpIf
  checkoutDeterministic : Bool
  buildNetAccess : Option Bool
  packageNetAccess : Option Bool

/-- Look up a class by name (`RecipeSet.getClass`). -/
def getClass (classes : List (String × Recipe)) (name : String) : Res Recipe :=
  match dictGet classes name with
  | some c => .ok c
  | none => .error ⟨"Class " ++ name ++ " requested but not found.", []⟩

/-- Process an `inherit` list in order; the recursion into each class is
handed in by `resolveOrder`. -/
def resolveOrderList (recFn : Recipe → List String → Res (List Recipe × List String))
    (classes : List (String × Recipe)) :
    List String → List String → Res (List Recipe × List String)
  | [], visited => .ok ([], visited)
  | n :: ns, visited =>
      match getClass classes n with
      | .error e => .error e
      | .ok c =>
          match recFn c visited with
          | .error e => .error e
          | .ok (ret₁, visited) =>
              match resolveOrderList recFn classes ns visited with
              | .error e => .error e
              | .ok (ret₂, visited) => .ok (ret₁ ++ ret₂, visited)

/-- `Recipe.__resolveClassesOrder` (input.py lines 1950-1968): depth-first
post-order over `inherit`, visiting each class at most once, skipping the
recipe itself, rejecting cycles via the name stack.  The recursion is
bounded by the fuel, which callers choose larger than the class count (the
stack check fires on any repeated class name first). -/
def resolveOrder (fuel : Nat) (classes : List (String × Recipe)) (cls : Recipe)
    (stack : List String) (visited : List String) (isRecipe : Bool) :
    Res (List Recipe × List String) :=
  match fuel with
  | 0 => .error ⟨"class inheritance too deep", []⟩
  | Nat.succ fuel =>
      let clsName := if isRecipe then "<recipe>" else cls.packageName
      if stack.contains clsName then
        .error ⟨"Cyclic class inheritence: " ++ String.intercalate " -> " (stack ++ [clsName]), []⟩
      else
        match resolveOrderList
            (fun c visited => resolveOrder fuel classes c (stack ++ [clsName]) visited false)
            classes cls.inherit visited with
        | .error e => .error e
        | .ok (ret, visited) =>
            if !visited.contains clsName && !isRecipe then
              .ok (ret ++ [cls], visited ++ [clsName])
            else
              .ok (ret, visited)

/-- One step of the parent-first merge loop of `resolveClasses` (input.py
lines 1986-2053).  The accumulator carries the recipe being mutated plus
the ordered merge lists of `environment`/`privateEnvironment` dictionaries
used when the `mergeEnvironment` policy is enabled. -/
def mergeClass (mergeEnv : Bool)
    (acc : Recipe × List (List (String × SValue)) × List (List (String × SValue)))
    (cls : Recipe) : Recipe × List (List (String × SValue)) × List (List (String × SValue)) :=
  let r := acc.1
  let vsL := acc.2.1
  let vpL := acc.2.2
  let r :=
    { r with
      deps := cls.deps ++ r.deps
      filterEnv := mergeFilter r.filterEnv cls.filterEnv
      filterTools := mergeFilter r.filterTools cls.filterTools
      filterSandbox := mergeFilter r.filterSandbox cls.filterSandbox
      root := orDefault r.root cls.root
      shared := orDefault r.shared cls.shared
      relocatable := orDefault r.relocatable cls.relocatable
      provideTools := dictUpdate cls.provideTools r.provideTools
      provideVars := dictUpdate cls.provideVars r.provideVars
      provideDeps := listUnion r.provideDeps cls.provideDeps
      provideSandbox := orDefault r.provideSandbox cls.provideSandbox
      varSelf := if mergeEnv then r.varSelf else dictUpdate cls.varSelf r.varSelf
      varPrivate := if mergeEnv then r.varPrivate else dictUpdate cls.varPrivate r.varPrivate
      checkoutVars := listUnion r.checkoutVars cls.checkoutVars
      metaEnv := dictUpdate cls.metaEnv r.metaEnv
      checkoutVarsWeak := listUnion r.checkoutVarsWeak cls.checkoutVarsWeak
      buildVars := listUnion r.buildVars cls.buildVars
      buildVarsWeak := listUnion r.buildVarsWeak cls.buildVarsWeak
      packageVars := listUnion r.packageVars cls.packageVars
      packageVarsWeak := listUnion r.packageVarsWeak cls.packageVarsWeak
      toolDepCheckout := listUnion r.toolDepCheckout cls.toolDepCheckout
      toolDepBuild := listUnion r.toolDepBuild cls.toolDepBuild
      toolDepPackage := listUnion r.toolDepPackage cls.toolDepPackage
      checkoutDeterministic := r.checkoutDeterministic && cls.checkoutDeterministic
      buildNetAccess := orDefault r.buildNetAccess cls.buildNetAccess
      packageNetAccess := orDefault r.packageNetAccess cls.packageNetAccess
      checkoutScript := joinScripts [cls.checkoutScript, r.checkoutScript] "\n"
      checkoutDigestScript := joinScripts [cls.checkoutDigestScript, r.checkoutDigestScript] "\n"
      checkoutSCMs := cls.checkoutSCMs ++ r.checkoutSCMs
      checkoutAsserts := cls.checkoutAsserts ++ r.checkoutAsserts
      buildScript := joinScripts [cls.buildScript, r.buildScript] "\n"
      buildDigestScript := joinScripts [cls.buildDigestScript, r.buildDigestScript] "\n"
      packageScript := joinScripts [cls.packageScript, r.packageScript] "\n"
      packageDigestScript := joinScripts [cls.packageDigestScript, r.packageDigestScript] "\n"
      fingerprintScripts := cls.fingerprintScripts ++ r.fingerprintScripts
      fingerprintIf := cls.fingerprintIf ++ r.fingerprintIf }
  let vsL := if mergeEnv && !cls.varSelf.isEmpty then cls.varSelf :: vsL else vsL
  let vpL := if mergeEnv && !cls.varPrivate.isEmpty then cls.varPrivate :: vpL else vpL
  (r, vsL, vpL)

/-- Resolve the `provideDeps` patterns against the dependency names
(input.py lines 2075-2083). -/
def resolveProvideDeps (patterns : List String) (availDeps : List String) :
    Res (List String) :=
  match patterns with
  | [] => .ok []
  | p :: ps =>
      let l := availDeps.filter (fun d => fnmatchcase d p)
      if l.isEmpty then
        .error ⟨"Unknown dependency '" ++ p ++ "' in provideDeps", []⟩
      else
        match resolveProvideDeps ps availDeps with
        | .error e => .error e
        | .ok rest => .ok (listUnion l rest)

/-- `Recipe.resolveClasses` (input.py lines 1970-2083): compute the class
order, merge parent-first, finalize the env merge lists, default the
package script to the empty script, compute the final `shared` and
`relocatable` values and resolve `provideDeps`. -/
def Recipe.resolveClasses (r : Recipe) (classes : List (String × Recipe))
    (policies : Policies) : Res ResolvedRecipe :=
  match resolveOrder (classes.length + 2) classes r [] [] true with
  | .error e => .error e
  | .ok (inherit, _) =>
      let mergeEnv := policies.mergeEnvironment
      let vsL0 : List (List (String × SValue)) :=
        if mergeEnv && !r.varSelf.isEmpty then [r.varSelf] else []
      let vpL0 : List (List (String × SValue)) :=
        if mergeEnv && !r.varPrivate.isEmpty then [r.varPrivate] else []
      let merged := inherit.reverse.foldl (mergeClass mergeEnv) (r, vsL0, vpL0)
      let acc := merged.1
      let vsL := if mergeEnv then merged.2.1 else (if acc.varSelf.isEmpty then [] else [acc.varSelf])
      let vpL := if mergeEnv then merged.2.2 else (if acc.varPrivate.isEmpty then [] else [acc.varPrivate])
      -- the package step must always be valid
      let pkg : Option String × Option String :=
        match acc.packageScript with
        | none => (some "", some "da39a3ee5e6b4b0d3255bfef95601890afd80709")
        | some s => (some s, acc.packageDigestScript)
      let relocatable :=
        match acc.relocatable with
        | some b => b
        | none => policies.allRelocatable || acc.provideTools.isEmpty
      match resolveProvideDeps acc.provideDeps (acc.deps.map (fun d => d.recipe)) with
      | .error e => .error e
      | .ok provided =>
          .ok
            { packageName := acc.packageName
              baseName := acc.baseName
              deps := acc.deps
              filterEnv := acc.filterEnv
              filterTools := acc.filterTools
              filterSandbox := acc.filterSandbox
              root := acc.root == some true
              shared := acc.shared == some true
              relocatable := relocatable
              provideTools := acc.provideTools
              provideVars := acc.provideVars
              provideDeps := provided
              provideSandbox := acc.provideSandbox
              varSelf := vsL
              varPrivate := vpL
              metaEnv := acc.metaEnv
              checkoutVars := acc.checkoutVars
              checkoutVarsWeak := acc.checkoutVarsWeak
              buildVars := acc.buildVars
              buildVarsWeak := acc.buildVarsWeak
              packageVars := acc.packageVars
              packageVarsWeak := acc.packageVarsWeak
              toolDepCheckout := acc.toolDepCheckout
              toolDepBuild := acc.toolDepBuild
              toolDepPackage := acc.toolDepPackage
              checkoutScript := acc.checkoutScript
              checkoutDigestScript := acc.checkoutDigestScript
              checkoutSCMs := acc.checkoutSCMs
              checkoutAsserts := acc.checkoutAsserts
              buildScript := acc.buildScript
              buildDigestScript := acc.buildDigestScript
              packageScript := pkg.1
              packageDigestScript := pkg.2
              fingerprintScripts := acc.fingerprintScripts
              fingerprintIf := acc.fingerprintIf
              checkoutDeterministic := acc.checkoutDeterministic
              buildNetAccess := acc.buildNetAccess
              packageNetAccess := acc.packageNetAccess }


/-! ### Elaboration: `Recipe.prepare` (input.py lines 2121-2405) -/

/-- The tool environment seen by a call-site. -/
abbrev ToolMap := List (String × CoreTool)

/-- `stack ∩ subTreePackages` on name lists. -/
def listInter (a b : List String) : List String :=
  a.filter (fun x => b.contains x)

/-- The recipe set as seen by elaboration: resolved recipes, policies and
the user-configured sandbox paths and mounts. -/
structure RecipeSet where
  recipes : List (String × ResolvedRecipe)
  policies : Policies
  sandboxPaths : List String
  sandboxMounts : List (String × String × List String)

/-- `RecipeSet.getRecipe`. -/
def RecipeSet.getRecipe (rs : RecipeSet) (name : String) : Res ResolvedRecipe :=
  match dictGet rs.recipes name with
  | some r => .ok r
  | none => .error ⟨"Package " ++ name ++ " requested but not found.", []⟩

/-- The filtered input tools (input.py lines 2142-2148); without a filter
the input tools are used as they are. -/
def filterToolsOf (r : ResolvedRecipe) (inputTools : ToolMap) : ToolMap :=
  match r.filterTools with
  | none => inputTools
  | some gl => inputTools.filter (fun p => checkGlobList p.1 (some gl))

/-- The result of one `prepare` invocation: the core package, the set of
package names of the elaborated sub-tree, the env and tool names the
invocation touched (propagated to the caller`s chain), and the updated
elaboration state. -/
structure PrepResult where
  pkg : CorePackage
  subTree : List String
  touchedEnv : List String
  touchedTools : List String
  state : ElabState

instance : Inhabited PrepResult := ⟨⟨default, [], [], [], ElabState.initial⟩⟩

/-- The recursive entry point handed to the dependency loop. -/
abbrev RecurseFn :=
  ResolvedRecipe → Env → Bool → States → Option CoreSandbox → ToolMap →
    List String → ElabState → Res PrepResult

/-- The accumulator of the dependency loop of `prepare` (input.py lines
2170-2278): sub-tree names, direct/indirect packages, the
`UniquePackageList` for `provideDeps` (result list and name cache), the
result refs for the build step, the caller`s own env/tools/sandbox, the
"dep" variants handed to children, states, the `DepTracker` table, the
touched names and the threaded elaboration state. -/
structure DepLoopState where
  subTree : List String
  direct : List CoreRef
  indirect : List CoreRef
  provideRet : List CoreRef
  provideCache : List (String × CoreRef)
  results : List CoreRef
  env : Env
  tools : ToolMap
  sandbox : Option CoreSandbox
  depEnv : Env
  depTools : ToolMap
  depSandbox : Option CoreSandbox
  depStates : States
  states : States
  thisDeps : List (String × DepTracker)
  tE : List String
  tT : List String
  st : ElabState

/-- `UniquePackageList.append` (input.py lines 1724-1732). -/
def uplAppend (stack : List String) (myName : String)
    (ret : List CoreRef) (cache : List (String × CoreRef)) (ref : CoreRef) :
    Res (List CoreRef × List (String × CoreRef)) :=
  let step := ref.refGetDestination
  let name := step.packageName
  match dictGet cache name with
  | none => .ok (ret ++ [ref], dictSet cache name ref)
  | some ref2 =>
      if ref2.refGetDestination.variantId ≠ step.variantId then
        .error ⟨"Incompatible variants of package: "
          ++ String.intercalate "/" (stack ++ ref.refGetStack) ++ " vs. "
          ++ String.intercalate "/" (stack ++ ref2.refGetStack)
          ++ " [" ++ myName ++ "]", []⟩
      else
        .ok (ret, cache)

/-- `UniquePackageList.extend`. -/
def uplExtend (stack : List String) (myName : String)
    (ret : List CoreRef) (cache : List (String × CoreRef)) :
    List CoreRef → Res (List CoreRef × List (String × CoreRef))
  | [] => .ok (ret, cache)
  | ref :: refs =>
      match uplAppend stack myName ret cache ref with
      | .error e => .error e
      | .ok (ret, cache) => uplExtend stack myName ret cache refs

/-- Apply the `use` set of an elaborated dependency (input.py lines
2217-2257): indirect deps, the build result (once per tracker), provided
tools, environment and sandbox, and the caller`s `provideDeps` patterns.
The `CoreRef` overlay diffs are not modelled (they only feed the deref
layer); plugin states are inert. -/
def applyDepUses (r : ResolvedRecipe) (sandboxEnabled : Bool) (stack : List String)
    (ls : DepLoopState) (dep : Dependency) (p : CorePackage) (depCoreStep : CoreStep)
    (depRef : CoreRef) : Res DepLoopState :=
  let ls :=
    if dep.useDeps then
      { ls with indirect := (ls.indirect ++ p.providedDeps.map
          (fun d => CoreRef.mk d.refGetDestination ([p.getName] ++ d.refGetStack))) }
    else ls
  let ls :=
    if dep.useBuildResult then
      match dictGet ls.thisDeps dep.recipe with
      | some tracker =>
          if tracker.usedResult then ls
          else
            let ls := { ls with results := ls.results ++ [depRef] }
            { ls with thisDeps := dictSet ls.thisDeps dep.recipe ⟨tracker.item, tracker.isNew, true⟩ }
      | none => ls
    else ls
  let ls :=
    if dep.useTools then
      let newTools := p.providedTools.map (fun nt => (nt.1, nt.2.toCoreTool depCoreStep))
      let ls := { ls with tools := dictUpdate ls.tools newTools }
      if dep.provideGlobal then { ls with depTools := dictUpdate ls.depTools newTools } else ls
    else ls
  let ls :=
    if dep.useEnv then
      let ls := { ls with env := ls.env.update p.providedEnv }
      if dep.provideGlobal then { ls with depEnv := ls.depEnv.update p.providedEnv } else ls
    else ls
  let ls :=
    if dep.useSandbox then
      match p.providedSandbox with
      | some ps =>
          let sb := ps.toCoreSandbox depCoreStep
          let ls := { ls with sandbox := some sb }
          let ls := if dep.provideGlobal then { ls with depSandbox := some sb } else ls
          if sandboxEnabled then
            let ls := { ls with env := ls.env.update sb.environment }
            if dep.provideGlobal then { ls with depEnv := ls.depEnv.update sb.environment } else ls
          else ls
      | none => ls
    else ls
  if r.provideDeps.contains dep.recipe then
    match uplExtend stack r.packageName ls.provideRet ls.provideCache
        (depRef :: p.providedDeps.map
          (fun d => CoreRef.mk d.refGetDestination ([p.getName] ++ d.refGetStack))) with
    | .error e => .error e
    | .ok (ret, cache) =>
        let ls := { ls with provideRet := ret }
        .ok { ls with provideCache := cache }
  else
    .ok ls

/-- One iteration of the dependency loop (input.py lines 2182-2257):
evaluate the condition, resolve the child recipe, check the stack for a
cycle, recurse, track duplicate names via `DepTracker`, then apply the
`use` set. -/
def processDep (recurse : RecurseFn) (rs : RecipeSet) (r : ResolvedRecipe)
    (sandboxEnabled : Bool) (stack : List String) (ls : DepLoopState)
    (dep : Dependency) : Res DepLoopState :=
  match evalCondOpt ls.env dep.condition with
  | .error e => .error e
  | .ok cond =>
      let ls := { ls with tE := ls.tE ++ condOptReads dep.condition }
      if !cond then .ok ls
      else
        match rs.getRecipe dep.recipe with
        | .error e => .error e
        | .ok child =>
            if stack.contains child.packageName then
              .error (ParseError.pushFrame ⟨"Recipes are cyclic (1st package in cylce)", []⟩
                child.packageName)
            else
              match framed child.packageName
                  (recurse child (ls.depEnv.update dep.envOverride) sandboxEnabled
                    ls.depStates ls.depSandbox ls.depTools
                    (stack ++ [child.packageName]) ls.st) with
              | .error e => .error e
              | .ok pr =>
                  let p := pr.pkg
                  let ls := { ls with
                    subTree := listUnion (listUnion ls.subTree [p.getName]) pr.subTree
                    tE := ls.tE ++ pr.touchedEnv
                    tT := ls.tT ++ pr.touchedTools
                    st := pr.state }
                  let depCoreStep := p.getCorePackageStep
                  let depRef := CoreRef.mk depCoreStep [p.getName]
                  match dictGet ls.thisDeps dep.recipe with
                  | none =>
                      let ls := { ls with
                        thisDeps := dictSet ls.thisDeps dep.recipe ⟨depRef, false, false⟩
                        direct := ls.direct ++ [depRef] }
                      applyDepUses r sandboxEnabled stack ls dep p depCoreStep depRef
                  | some tracker =>
                      if depCoreStep.variantId ≠ tracker.item.refGetDestination.variantId then
                        .error ⟨"Multiple incompatible dependencies to package: "
                          ++ depCoreStep.packageName, []⟩
                      else if rs.policies.uniqueDependency then
                        .error ⟨"Duplicate dependency '" ++ dep.recipe
                          ++ "'. Each dependency must only be named once!", []⟩
                      else
                        -- warnDepends.show: a warning only
                        applyDepUses r sandboxEnabled stack ls dep p depCoreStep depRef

/-- The dependency loop. -/
def processDeps (recurse : RecurseFn) (rs : RecipeSet) (r : ResolvedRecipe)
    (sandboxEnabled : Bool) (stack : List String) :
    List Dependency → DepLoopState → Res DepLoopState
  | [], ls => .ok ls
  | d :: ds, ls =>
      match processDep recurse rs r sandboxEnabled stack ls d with
      | .error e => .error e
      | .ok ls => processDeps recurse rs r sandboxEnabled stack ds ls

/-- One iteration of the indirect-package filter loop (input.py lines
2263-2278). -/
def processIndirectOne (stack : List String) (ls : DepLoopState) (depRef : CoreRef) :
    Res DepLoopState :=
  let depCoreStep := depRef.refGetDestination
  let name := depCoreStep.packageName
  let tracker :=
    match dictGet ls.thisDeps name with
    | none => (⟨depRef, true, false⟩ : DepTracker)
    | some t => t
  let ls := { ls with thisDeps := dictSet ls.thisDeps name tracker }
  let primed := tracker.isNew
  let tracker := ⟨tracker.item, false, tracker.usedResult⟩
  let ls := { ls with thisDeps := dictSet ls.thisDeps name tracker }
  if primed then
    let ls := { ls with indirect := ls.indirect ++ [depRef] }
    if !tracker.usedResult then
      let ls := { ls with results := ls.results ++ [depRef] }
      .ok { ls with thisDeps := dictSet ls.thisDeps name ⟨tracker.item, false, true⟩ }
    else
      .ok ls
  else if depCoreStep.variantId ≠ tracker.item.refGetDestination.variantId then
    .error ⟨"Incompatible variants of package: "
      ++ String.intercalate "/" (stack ++ depRef.refGetStack) ++ " vs. "
      ++ String.intercalate "/" (stack ++ tracker.item.refGetStack), []⟩
  else if !tracker.usedResult then
    let ls := { ls with results := ls.results ++ [depRef] }
    .ok { ls with thisDeps := dictSet ls.thisDeps name ⟨tracker.item, false, true⟩ }
  else
    .ok ls

/-- The indirect-package filter loop (input.py lines 2259-2278): the
accumulated indirect refs are re-filtered against the tracker table. -/
def processIndirect (stack : List String) :
    List CoreRef → DepLoopState → Res DepLoopState
  | [], ls => .ok ls
  | ref :: refs, ls =>
      match processIndirectOne stack ls ref with
      | .error e => .error e
      | .ok ls => processIndirect stack refs ls

/-- Apply the tool environments (input.py lines 2280-2291): every used
package tool may contribute environment variables; two tools defining the
same variable are an error. -/
def applyToolEnvs (names : List String) (toolsView : ToolMap) (toolsEnv : List String)
    (env : Env) : Res Env :=
  match names with
  | [] => .ok env
  | i :: is =>
      match dictGet toolsView i with
      | none => applyToolEnvs is toolsView toolsEnv env
      | some tool =>
          if tool.environment.isEmpty then applyToolEnvs is toolsView toolsEnv env
          else
            let tmp := dictKeys tool.environment
            if tmp.any (fun k => toolsEnv.contains k) then
              .error ⟨"Multiple tools defined the same environment variable(s)", []⟩
            else
              applyToolEnvs is toolsView (toolsEnv ++ tmp) (env.update tool.environment)

/-- Substitute one recipe environment dictionary against the current
environment. -/
def substDict (env : Env) (d : List (String × SValue)) : Res (List (String × String)) :=
  match d with
  | [] => .ok []
  | kv :: kvs =>
      match env.substitute kv.2 with
      | .error e => .error e
      | .ok v =>
          match substDict env kvs with
          | .error e => .error e
          | .ok rest => .ok ((kv.1, v) :: rest)

/-- Variables read when substituting a dictionary of values. -/
def svalDictReads (d : List (String × SValue)) : List String :=
  d.flatMap (fun kv => svalReads kv.2)

/-- Apply an ordered list of environment dictionaries, each substituted
against the environment produced so far and then derived on top of it
(input.py lines 2156-2158 and 2296-2298). -/
def applyVarDicts (env : Env) : List (List (String × SValue)) → Res Env
  | [] => .ok env
  | d :: ds =>
      match substDict env d with
      | .error e => .error e
      | .ok vals => applyVarDicts (env.update vals) ds

/-- Variables read when applying the environment merge list. -/
def varDictsReads (ds : List (List (String × SValue))) : List String :=
  ds.flatMap svalDictReads

/-- Sort a list of tool names (`sorted(self.__toolDepPackage)`). -/
def sortStrings (l : List String) : List String :=
  (sortByKey (l.map (fun s => (s, ())))).map Prod.fst

/-- Compute the fingerprint mask (input.py lines 2315-2331): one bit per
condition, `None` meaning "maybe" (set iff any other bit is set). -/
def fpMaskGo (env : Env) : List FpIf → Nat → Nat → Nat → Res (Nat × Nat)
  | [], doFp, doMaybe, _ => .ok (doFp, doMaybe)
  | c :: cs, doFp, doMaybe, mask =>
      match c with
      | .absent => fpMaskGo env cs doFp (Nat.lor doMaybe mask) (mask * 2)
      | .flag b => fpMaskGo env cs (if b then Nat.lor doFp mask else doFp) doMaybe (mask * 2)
      | .expr cond =>
          match env.evaluate cond with
          | .error e => .error e
          | .ok b => fpMaskGo env cs (if b then Nat.lor doFp mask else doFp) doMaybe (mask * 2)

/-- The fingerprint conditions in evaluation order: the used package tools
in sorted name order, then the recipe`s own `fingerprintIf` list. -/
def fpConditions (r : ResolvedRecipe) (toolsView : ToolMap) : List FpIf :=
  ((sortStrings r.toolDepPackage).filterMap (fun i => dictGet toolsView i)).map
    CoreTool.fingerprintIf
  ++ r.fingerprintIf

/-- Variables read while computing the fingerprint mask. -/
def fpConditionReads (conds : List FpIf) : List String :=
  conds.flatMap (fun c =>
    match c with
    | .expr cond => condReads cond
    | _ => [])

/-- The final fingerprint mask. -/
def fingerprintMaskOf (r : ResolvedRecipe) (toolsView : ToolMap) (env : Env) : Res Nat :=
  match fpMaskGo env (fpConditions r toolsView) 0 0 1 with
  | .error e => .error e
  | .ok (doFp, doMaybe) => .ok (if doFp ≠ 0 then Nat.lor doFp doMaybe else doFp)

/-- `os.path` handling of SCM directories: path components with empty and
`.` segments dropped (`..` collapsing of `normpath` is not modelled). -/
def pathComps (p : String) : List String :=
  (p.splitOn "/").filter (fun c => c ≠ "" && c ≠ ".")

/-- `overlappingPaths` (input.py lines 41-48). -/
def overlappingPaths (p1 p2 : String) : Bool :=
  List.isPrefixOf (pathComps p1) (pathComps p2) || List.isPrefixOf (pathComps p2) (pathComps p1)

/-- `os.path.isabs`. -/
def isAbsPath (p : String) : Bool :=
  p.startsWith "/"

/-- Validate that SCM paths are relative and do not overlap
(`CoreCheckoutStep.__init__`, input.py lines 1165-1175). -/
def checkScmPaths : List Scm → List String → Res Unit
  | [], _ => .ok ()
  | s :: ss, knownPaths =>
      if isAbsPath s.dir then
        .error ⟨"SCM paths must be relative! Offending path: " ++ s.dir, []⟩
      else if knownPaths.any (fun known => overlappingPaths known s.dir) then
        .error ⟨"SCM paths overlap: " ++ s.dir, []⟩
      else
        checkScmPaths ss (knownPaths ++ [s.dir])

/-- Filter the SCM list by the `if` conditions evaluated in the full
environment (`CoreCheckoutStep.__init__`, input.py lines 1156-1163). -/
def filterScms (fullEnv : Env) : List Scm → Res (List Scm)
  | [] => .ok []
  | s :: ss =>
      match evalCondOpt fullEnv s.scmIf with
      | .error e => .error e
      | .ok b =>
          match filterScms fullEnv ss with
          | .error e => .error e
          | .ok rest => .ok (if b then s :: rest else rest)

/-- Variables read while filtering the SCM list. -/
def scmReads (scms : List Scm) : List String :=
  scms.flatMap (fun s => condOptReads s.scmIf)

/-- The digest script of a valid checkout step
(`CoreCheckoutStep.getDigestScript`, input.py lines 1216-1223). -/
def checkoutDigestScriptOf (r : ResolvedRecipe) (scms : List Scm) : String :=
  String.intercalate "\n"
    (scms.map Scm.digestScript ++ [r.checkoutDigestScript.getD ""] ++ r.checkoutAsserts)


/-- Build the checkout step (input.py lines 2339-2346 and
`CoreCheckoutStep.__init__`): with any checkout contribution the SCM list
is filtered by the `if` conditions, SCM paths are validated, and the step
is valid iff a checkout script exists or an SCM survived; otherwise an
invalid checkout step is created.  Returns the step and the names read by
the SCM conditions. -/
def mkCheckoutStepOf (rs : RecipeSet) (r : ResolvedRecipe) (tools : ToolMap)
    (sandbox : Option CoreSandbox) (mask : Nat) (env : Env) :
    Res (CoreStep × List String) :=
  if r.checkoutScript.isSome || r.checkoutDigestScript.isSome
      || !r.checkoutSCMs.isEmpty || !r.checkoutAsserts.isEmpty then
    match filterScms env r.checkoutSCMs with
    | .error e => .error e
    | .ok scms =>
        match checkScmPaths scms [] with
        | .error e => .error e
        | .ok _ =>
            let isVal := r.checkoutScript.isSome || !scms.isEmpty
            let ds := if isVal then some (checkoutDigestScriptOf r scms) else none
            let digestEnv := (env.prune r.checkoutVars).vars
            let stepEnv :=
              if !r.checkoutVarsWeak.isEmpty then
                (env.prune (listUnion r.checkoutVars r.checkoutVarsWeak)).vars
              else digestEnv
            .ok (mkCoreStep .checkout r.packageName isVal r.checkoutDeterministic
                  digestEnv stepEnv [] scms tools r.toolDepCheckout sandbox mask
                  rs.policies.sandboxInvariant ds,
                scmReads r.checkoutSCMs)
  else
    .ok (mkCoreStep .checkout r.packageName false r.checkoutDeterministic [] [] [] []
          tools r.toolDepCheckout sandbox mask rs.policies.sandboxInvariant none, [])

/-- Build the build step (input.py lines 2348-2356): valid iff a build
script exists, with the checkout ref and the collected results as
arguments; the digest script of the step is the recipe`s build digest
script in both cases. -/
def mkBuildStepOf (rs : RecipeSet) (r : ResolvedRecipe) (tools : ToolMap)
    (sandbox : Option CoreSandbox) (mask : Nat) (env : Env) (results : List CoreRef)
    (srcStep : CoreStep) : CoreStep :=
  if r.buildScript.isSome || r.buildDigestScript.isSome then
    let digestEnv := (env.prune r.buildVars).vars
    let stepEnv :=
      if !r.buildVarsWeak.isEmpty then
        (env.prune (listUnion r.buildVars r.buildVarsWeak)).vars
      else digestEnv
    mkCoreStep .build r.packageName r.buildScript.isSome true digestEnv stepEnv
      (CoreRef.mk srcStep [] :: results) [] tools r.toolDepBuild sandbox mask
      rs.policies.sandboxInvariant r.buildDigestScript
  else
    mkCoreStep .build r.packageName false true [] [] [] [] tools r.toolDepBuild sandbox
      mask rs.policies.sandboxInvariant r.buildDigestScript

/-- Build the mandatory package step (input.py lines 2358-2363). -/
def mkPackageStepOf (rs : RecipeSet) (r : ResolvedRecipe) (tools : ToolMap)
    (sandbox : Option CoreSandbox) (mask : Nat) (env : Env) (buildStep : CoreStep) :
    CoreStep :=
  let digestEnv := (env.prune r.packageVars).vars
  let stepEnv :=
    if !r.packageVarsWeak.isEmpty then
      (env.prune (listUnion r.packageVars r.packageVarsWeak)).vars
    else digestEnv
  mkCoreStep .package r.packageName r.packageScript.isSome true digestEnv stepEnv
    [CoreRef.mk buildStep []] [] tools r.toolDepPackage sandbox mask
    rs.policies.sandboxInvariant r.packageDigestScript

/-- Prepare the provided tools (input.py lines 2371-2373). -/
def prepareProvidedTools (env : Env) :
    List (String × AbstractTool) → Res (List (String × ProvidedTool))
  | [] => .ok []
  | (n, t) :: ts =>
      match t.prepare env with
      | .error e => .error e
      | .ok pt =>
          match prepareProvidedTools env ts with
          | .error e => .error e
          | .ok rest => .ok ((n, pt) :: rest)

/-- `CoreSandbox.__init__` for a provided sandbox (input.py lines
547-567): user-configured paths first, substituted mounts with empty
entries dropped plus the user-configured mounts, and the substituted
environment. -/
def substMounts (env : Env) : List (SValue × SValue × List String) →
    Res (List (String × String × List String))
  | [] => .ok []
  | m :: ms =>
      match env.substitute m.1 with
      | .error e => .error e
      | .ok mfrom =>
          match env.substitute m.2.1 with
          | .error e => .error e
          | .ok mto =>
              match substMounts env ms with
              | .error e => .error e
              | .ok rest => .ok ((mfrom, mto, m.2.2) :: rest)

def mkProvidedSandboxOf (rs : RecipeSet) (env : Env) (sandboxEnabled : Bool)
    (spec : SandboxSpec) : Res ProvidedSandbox :=
  match substMounts env spec.mounts with
  | .error e => .error e
  | .ok mounts =>
      match substDict env spec.environment with
      | .error e => .error e
      | .ok environment =>
          .ok ⟨sandboxEnabled, rs.sandboxPaths ++ spec.paths,
            (mounts.filter (fun m => m.1 ≠ "" && m.2.1 ≠ "")) ++ rs.sandboxMounts,
            environment⟩

/-- Variables read when providing a sandbox. -/
def sandboxSpecReads (spec : SandboxSpec) : List String :=
  spec.mounts.flatMap (fun m => svalReads m.1 ++ svalReads m.2.1)
    ++ spec.environment.flatMap (fun kv => svalReads kv.2)

/-- The body of a cache miss of `Recipe.prepare` (input.py lines
2136-2388): filter tools/env/sandbox, apply the recipe environment, run
the dependency loop, filter indirect packages, apply tool environments and
the private/meta environment, compute the fingerprint mask, create the
package and its three steps, attach the provided values and enforce the
shared-determinism rule.  Returns the fresh package, the sub-tree names,
the touched env/tool names and the threaded state. -/
def elaboratePackage (recurse : RecurseFn) (rs : RecipeSet) (r : ResolvedRecipe)
    (inputEnv : Env) (sandboxEnabled : Bool) (inputStates : States)
    (inputSandbox : Option CoreSandbox) (inputTools : ToolMap) (stack : List String)
    (st : ElabState) :
    Res (CorePackage × List String × List String × List String × ElabState) :=
  -- make copies because we will modify them; touchReset starts the local
  -- touched sets empty, the env filter runs after the reset
  let toolsF := filterToolsOf r inputTools
  let tE0 : List String :=
    match r.filterEnv with
    | none => []
    | some _ => dictKeys inputEnv.vars
  let env0 := inputEnv.filterGlobs r.filterEnv
  match applyVarDicts env0 r.varSelf with
  | .error e => .error e
  | .ok env1 =>
      let tE0 := tE0 ++ varDictsReads r.varSelf
      let sandbox0 : Option CoreSandbox :=
        match inputSandbox with
        | some sb =>
            if checkGlobList sb.coreStep.packageName r.filterSandbox then some sb else none
        | none => none
      -- plugin states are inert; onEnter changes nothing
      let ls0 : DepLoopState :=
        ⟨[], [], [], [], [], [], env1, toolsF, sandbox0, env1, toolsF, sandbox0,
         inputStates, inputStates, [], tE0, [], st⟩
      match processDeps recurse rs r sandboxEnabled stack r.deps ls0 with
      | .error e => .error e
      | .ok ls =>
          match processIndirect stack ls.indirect { ls with indirect := [] } with
          | .error e => .error e
          | .ok ls =>
              match applyToolEnvs r.toolDepPackage ls.tools [] ls.env with
              | .error e => .error e
              | .ok env2 =>
                  match applyVarDicts env2 r.varPrivate with
                  | .error e => .error e
                  | .ok env3 =>
                      let tE1 := ls.tE ++ varDictsReads r.varPrivate
                      -- meta variables override but can not be substituted
                      let env4 := (env3.update r.metaEnv).set "BOB_RECIPE_NAME" r.baseName
                      let env5 := env4.set "BOB_PACKAGE_NAME" r.packageName
                      -- record used environment and tools
                      let tE2 := tE1 ++ listUnion r.packageVars r.packageVarsWeak
                      let tT2 := ls.tT ++ r.toolDepPackage
                      match fingerprintMaskOf r ls.tools env5 with
                      | .error e => .error e
                      | .ok mask =>
                          let tE3 := tE2 ++ fpConditionReads (fpConditions r ls.tools)
                          let uid := ls.st.nextUid + 1
                          let st1 := { ls.st with nextUid := uid }
                          match mkCheckoutStepOf rs r ls.tools ls.sandbox mask env5 with
                          | .error e => .error e
                          | .ok (srcStep, scmTouched) =>
                              let tE4 := tE3 ++ scmTouched
                              let buildStep :=
                                mkBuildStepOf rs r ls.tools ls.sandbox mask env5 ls.results srcStep
                              let packageStep :=
                                mkPackageStepOf rs r ls.tools ls.sandbox mask env5 buildStep
                              match substDict env5 r.provideVars with
                              | .error e => .error e
                              | .ok provideEnv =>
                                  let tE5 := tE4 ++ svalDictReads r.provideVars
                                  match prepareProvidedTools env5 r.provideTools with
                                  | .error e => .error e
                                  | .ok providedTools =>
                                      let tE6 := tE5 ++ r.provideTools.flatMap
                                        (fun nt => abstractToolReads nt.2)
                                      match ((match r.provideSandbox with
                                             | some spec =>
                                                 match mkProvidedSandboxOf rs env5 sandboxEnabled spec with
                                                 | .error e => .error e
                                                 | .ok sb => .ok (some sb)
                                             | none => .ok none) : Res (Option ProvidedSandbox)) with
                                      | .error e => .error e
                                      | .ok providedSandbox =>
                                          let tE7 := tE6 ++
                                            (match r.provideSandbox with
                                             | some spec => sandboxSpecReads spec
                                             | none => [])
                                          -- states onFinish: inert
                                          if r.shared && !packageStep.isDeterministicM then
                                            .error ⟨"Shared packages must be deterministic!", []⟩
                                          else
                                            let p : CorePackage :=
                                              ⟨r.baseName, r.packageName, ls.tools, ls.sandbox,
                                               ls.direct, ls.indirect, ls.states, uid, mask,
                                               srcStep, buildStep, packageStep,
                                               provideEnv, providedTools, ls.provideRet,
                                               providedSandbox⟩
                                            .ok (p, ls.subTree, tE7, tT2, st1)

/-- Register a freshly elaborated package (input.py lines 2390-2398): the
package step`s Result-Id keys `__corePackagesById`; an existing entry wins
and the fresh package is dropped, and a new `PackageMatcher` for the
call-site is pushed to the front of the matcher list. -/
def registerCorePackage (st : ElabState) (recipeName : String) (p : CorePackage)
    (inputEnvVars : List (String × String)) (inputTools : ToolMap)
    (inputStates : States) (inputSandbox : Option CoreSandbox)
    (touchedEnv touchedTools : List String) (subTree : List String) :
    CorePackage × ElabState :=
  let rid := p.resultId
  let reusable :=
    match dictGet (stateById st recipeName) rid with
    | some q => q
    | none => p
  let st :=
    match dictGet (stateById st recipeName) rid with
    | some _ => st
    | none =>
        { st with byId := dictSet st.byId recipeName (stateById st recipeName ++ [(rid, p)]) }
  let matcher := mkPackageMatcher reusable inputEnvVars inputTools touchedEnv touchedTools
    inputStates inputSandbox subTree
  let st :=
    { st with matchers := dictSet st.matchers recipeName (matcher :: stateMatchers st recipeName) }
  (reusable, st)

/-- `Recipe.prepare` (input.py lines 2121-2405): look for a matching
`PackageMatcher` first; a hit checks the stack against the cached sub-tree
(cycle error), touches the recorded names and returns the cached package;
a miss elaborates the package and registers it keyed by its Result-Id.
The fuel bounds the recursion depth; the stack-based cycle check fires
long before any reasonable fuel is exhausted. -/
def prepare (fuel : Nat) (rs : RecipeSet) (r : ResolvedRecipe) (inputEnv : Env)
    (sandboxEnabled : Bool) (inputStates : States) (inputSandbox : Option CoreSandbox)
    (inputTools : ToolMap) (stack : List String) (st : ElabState) : Res PrepResult :=
  match fuel with
  | 0 => .error ⟨"elaboration recursion limit", []⟩
  | Nat.succ fuel =>
      match memoFind (stateMatchers st r.packageName) inputEnv.vars inputTools
          inputStates inputSandbox with
      | some m =>
          if !(listInter stack m.subTreePackages).isEmpty then
            .error ⟨"Recipes are cyclic", []⟩
          else
            -- m.touch(inputEnv, inputTools)
            .ok ⟨m.corePackage, m.subTreePackages, m.env.map Prod.fst, m.tools.map Prod.fst, st⟩
      | none =>
          match elaboratePackage
              (fun child env sbE sts sb tools stk st =>
                prepare fuel rs child env sbE sts sb tools stk st)
              rs r inputEnv sandboxEnabled inputStates inputSandbox inputTools stack st with
          | .error e => .error e
          | .ok (p, subTree, tE, tT, st) =>
              let reg := registerCorePackage st r.packageName p inputEnv.vars
                (filterToolsOf r inputTools) inputStates inputSandbox tE tT subTree
              .ok ⟨reg.1, subTree, tE, tT, reg.2⟩

/-- An empty recipe skeleton (all fields of `Recipe.__init__` at their
defaults for an empty document). -/
def emptyRecipe (name : String) : Recipe :=
  { packageName := name
    baseName := name
    inherit := []
    deps := []
    filterEnv := none
    filterTools := none
    filterSandbox := none
    root := none
    provideTools := []
    provideVars := []
    provideDeps := []
    provideSandbox := none
    varSelf := []
    varPrivate := []
    metaEnv := []
    checkoutVars := []
    checkoutVarsWeak := []
    buildVars := []
    buildVarsWeak := []
    packageVars := []
    packageVarsWeak := []
    toolDepCheckout := []
    toolDepBuild := []
    toolDepPackage := []
    shared := none
    relocatable := none
    checkoutScript := none
    checkoutDigestScript := none
    checkoutSCMs := []
    checkoutAsserts := []
    buildScript := none
    buildDigestScript := none
    packageScript := none
    packageDigestScript := none
    fingerprintScripts := []
    fingerprintIf := []
    checkoutDeterministic := true
    buildNetAccess := none
    packageNetAccess := none }

/-- A hex digit. -/
def hexDigit (n : Nat) : Char :=
  if n < 10 then Char.ofNat (48 + n) else Char.ofNat (87 + n)

/-- `asHexStr` over model bytes. -/
def bytesToHex (bs : List Nat) : String :=
  ⟨bs.flatMap (fun b => [hexDigit (b / 16 % 16), hexDigit (b % 16)])⟩

/-- `IncludeHelper.resolve` for scripts without include directives
(input.py lines 1638-1651): the script itself plus a digest script derived
from the SHA1 of the original text. -/
def includeResolve (s : Option String) : Option String × Option String :=
  match s with
  | none => (none, none)
  | some text => (some text, some (bytesToHex (sha1 (strBytes text))))

/-- `Recipe.createVirtualRoot` (input.py lines 1853-1864): a synthetic
recipe named `""` depending on every root with `use: [result]`, with
`true` build and package scripts, resolved like any recipe. -/
def createVirtualRoot (policies : Policies) (roots : List String) : Res ResolvedRecipe :=
  let build := includeResolve (some "true")
  let raw :=
    { emptyRecipe "" with
      deps := roots.map (fun n => mkDependency n [] false ["result"] none)
      buildScript := build.1
      buildDigestScript := build.2
      packageScript := build.1
      packageDigestScript := build.2 }
  raw.resolveClasses [] policies

/-- `RecipeSet.generatePackages` restricted to the modelled core
(input.py lines 2989-3004 and 3257-3259): resolve the root set, create the
virtual root and prepare it from the given environment. -/
def elaborate (fuel : Nat) (rs : RecipeSet) (env : Env) (sandboxEnabled : Bool) :
    Res PrepResult :=
  let roots := sortStrings ((rs.recipes.filter (fun nr => nr.2.root)).map Prod.fst)
  match createVirtualRoot rs.policies roots with
  | .error e => .error e
  | .ok vroot =>
      prepare fuel rs vroot env sandboxEnabled [] none [] [] ElabState.initial


/-! ## Lemmas about the digest hasher -/

theorem host_update (h : DigestHasher) (bs : List Nat) : (h.update bs).host = h.host := rfl

theorem host_fingerprint (h : DigestHasher) (bs : List Nat) :
    (h.fingerprint bs).host = h.host ++ bs := rfl

theorem host_foldl_paths : ∀ (l : List String) (h : DigestHasher),
    (l.foldl (fun (h : DigestHasher) (p : String) =>
      (h.update (packU32 p.length)).update (strBytes p)) h).host = h.host := by
  intro l
  induction l with
  | nil => intro h; rfl
  | cons x xs ih => intro h; rw [List.foldl_cons]; exact ih _

theorem host_foldl_tools (calculate : CoreStep → List Nat) :
    ∀ (l : List (String × CoreTool)) (h : DigestHasher),
      (l.foldl (fun (h : DigestHasher) (nt : String × CoreTool) =>
        let tool := nt.2
        let h := h.update (DigestHasher.sliceRecipes (calculate tool.coreStep))
        let h := h.update (packU32 tool.path.length ++ packU32 tool.libs.length)
        let h := h.update (strBytes tool.path)
        tool.libs.foldl (fun (h : DigestHasher) (l : String) =>
          (h.update (packU32 l.length)).update (strBytes l)) h) h).host = h.host := by
  intro l
  induction l with
  | nil => intro h; rfl
  | cons x xs ih =>
    intro h
    rw [List.foldl_cons, ih]
    exact host_foldl_paths _ _

theorem host_foldl_env : ∀ (l : List (String × String)) (h : DigestHasher),
    (l.foldl (fun (h : DigestHasher) (kv : String × String) =>
      (h.update (packU32 kv.1.length ++ packU32 kv.2.length)).update (strBytes (kv.1 ++ kv.2))) h).host
      = h.host := by
  intro l
  induction l with
  | nil => intro h; rfl
  | cons x xs ih => intro h; rw [List.foldl_cons]; exact ih _

theorem host_foldl_args (calculate : CoreStep → List Nat) :
    ∀ (l : List CoreStep) (h : DigestHasher),
      (l.foldl (fun (h : DigestHasher) (arg : CoreStep) =>
        let a := calculate arg
        (h.update (DigestHasher.sliceRecipes a)).fingerprint (DigestHasher.sliceHost a)) h).host
      = h.host ++ l.flatMap (fun a => DigestHasher.sliceHost (calculate a)) := by
  intro l
  induction l with
  | nil => intro h; simp
  | cons x xs ih =>
    intro h
    rw [List.foldl_cons, ih]
    simp [host_fingerprint, host_update]

theorem host_scriptStage (h : DigestHasher) (ds : Option String) :
    (match ds with
     | some sc =>
        if sc = "" then h.update [0, 0, 0, 0]
        else (h.update (packU32 sc.length)).update (strBytes sc)
     | none => h.update [0, 0, 0, 0]).host = h.host := by
  cases ds with
  | none => rfl
  | some sc =>
    by_cases h1 : sc = "" <;> simp [h1, host_update]

theorem host_sandboxStage (h : DigestHasher) (calculate : CoreStep → List Nat)
    (o : Option CoreSandbox) :
    (match o with
     | some sandbox =>
        let h := h.update (DigestHasher.sliceRecipes (calculate sandbox.coreStep))
        let h := h.update (packU32 sandbox.paths.length)
        sandbox.paths.foldl (fun (h : DigestHasher) (p : String) =>
          (h.update (packU32 p.length)).update (strBytes p)) h
     | none => h.update (List.replicate 20 0)).host = h.host := by
  cases o with
  | none => rfl
  | some sandbox =>
    simp only []
    rw [host_foldl_paths]
    rfl

theorem host_fpStage (calculate : CoreStep → List Nat) (o : Option CoreSandbox) (fp : Bool) :
    (match o with
     | some sb =>
        if fp then DigestHasher.new.fingerprint (DigestHasher.sliceRecipes (calculate sb.coreStep))
        else DigestHasher.new
     | none => DigestHasher.new).host =
    (match o with
     | some sb => if fp then DigestHasher.sliceRecipes (calculate sb.coreStep) else []
     | none => []) := by
  cases o with
  | none => rfl
  | some sb => cases fp <;> simp [DigestHasher.new, host_fingerprint]

/-- The host part of the digest hasher of a step: the sandbox slice when
the step is fingerprinted and has an enabled sandbox, followed by the host
slices of the valid arguments. -/
theorem getDigestHasher_host (s : CoreStep) (calculate : CoreStep → List Nat)
    (forceSandbox : Bool) :
    (s.getDigestHasher calculate forceSandbox).host =
      (match s.getSandbox false with
       | some sb =>
          if s.isFingerprinted then DigestHasher.sliceRecipes (calculate sb.coreStep) else []
       | none => []) ++
      ((s.args.map CoreRef.refGetDestination).filter (fun a => a.isValid)).flatMap
        (fun a => DigestHasher.sliceHost (calculate a)) := by
  unfold CoreStep.getDigestHasher
  rw [host_foldl_args]
  congr 1
  rw [host_update, host_foldl_env, host_update, host_foldl_tools, host_update,
    host_scriptStage, host_sandboxStage, host_fpStage]

theorem digestHasher_digest_length (h : DigestHasher) :
    h.digest.length = if h.host = [] then 20 else 40 := by
  by_cases hh : h.host = [] <;> simp [DigestHasher.digest, hh, sha1_length]

/-! ## Claim theorems -/

/-- C2: for every step, the digest returned by `CoreStep.getDigest` is 40
bytes (recipe SHA1 followed by a 20-byte host-fingerprint SHA1) exactly
when the step is fingerprinted and has a sandbox, or a valid argument
contributed a host slice (its own digest is 40 bytes); the digest is
exactly 20 bytes otherwise, so a 40-byte digest is never emitted when no
host contribution exists. -/
theorem claim_C2_digest_length (s : CoreStep) (calculate : CoreStep → List Nat)
    (forceSandbox : Bool)
    (hcalc : ∀ t : CoreStep, (calculate t).length = 20 ∨ (calculate t).length = 40) :
    ((s.getDigest calculate forceSandbox).length = 40 ↔
      ((s.isFingerprinted = true ∧ (s.getSandbox false).isSome = true)
        ∨ (∃ ref ∈ s.args, ref.refGetDestination.isValid = true ∧
            (calculate ref.refGetDestination).length = 40)))
    ∧ ((s.getDigest calculate forceSandbox).length = 40
        ∨ (s.getDigest calculate forceSandbox).length = 20) := by
  have hlen : (s.getDigest calculate forceSandbox).length =
      if (s.getDigestHasher calculate forceSandbox).host = [] then 20 else 40 :=
    digestHasher_digest_length _
  have sub1 : (match s.getSandbox false with
       | some sb =>
          if s.isFingerprinted then DigestHasher.sliceRecipes (calculate sb.coreStep) else []
       | none => ([] : List Nat)) ≠ [] ↔
      (s.isFingerprinted = true ∧ (s.getSandbox false).isSome = true) := by
    cases hsb : s.getSandbox false with
    | none => simp
    | some sb =>
      cases hfp : s.isFingerprinted with
      | false => simp
      | true =>
        simp only [if_true, Option.isSome_some, and_true, ne_eq, iff_true]
        have h20 : (DigestHasher.sliceRecipes (calculate sb.coreStep)).length = 20 := by
          unfold DigestHasher.sliceRecipes
          rcases hcalc sb.coreStep with h | h <;> simp [h]
        intro hnil
        rw [hnil] at h20
        simp at h20
  have sub2 : (((s.args.map CoreRef.refGetDestination).filter (fun a => a.isValid)).flatMap
        (fun a => DigestHasher.sliceHost (calculate a))) ≠ [] ↔
      (∃ ref ∈ s.args, ref.refGetDestination.isValid = true ∧
        (calculate ref.refGetDestination).length = 40) := by
    rw [ne_eq, List.flatMap_eq_nil_iff]
    push_neg
    constructor
    · rintro ⟨a, ha, hne⟩
      have := List.mem_filter.mp ha
      obtain ⟨ref, href, hrefa⟩ := List.mem_map.mp this.1
      refine ⟨ref, href, by rw [hrefa]; exact this.2, ?_⟩
      rw [hrefa]
      rcases hcalc a with h | h
      · exfalso
        apply hne
        unfold DigestHasher.sliceHost
        rw [List.drop_eq_nil_iff, h]
      · exact h
    · rintro ⟨ref, href, hval, hlen40⟩
      refine ⟨ref.refGetDestination,
        List.mem_filter.mpr ⟨List.mem_map.mpr ⟨ref, href, rfl⟩, hval⟩, ?_⟩
      unfold DigestHasher.sliceHost
      intro hnil
      rw [List.drop_eq_nil_iff, hlen40] at hnil
      omega
  have key : (s.getDigestHasher calculate forceSandbox).host ≠ [] ↔
      ((s.isFingerprinted = true ∧ (s.getSandbox false).isSome = true)
        ∨ (∃ ref ∈ s.args, ref.refGetDestination.isValid = true ∧
            (calculate ref.refGetDestination).length = 40)) := by
    rw [getDigestHasher_host, ne_eq, List.append_eq_nil]
    rw [not_and_or, ← ne_eq, ← ne_eq, sub1, sub2]
  constructor
  · rw [hlen]
    by_cases hh : (s.getDigestHasher calculate forceSandbox).host = []
    · simp only [hh, if_true]
      constructor
      · intro h; omega
      · intro h
        exact absurd (key.mpr h) (by simp [hh])
    · simp only [hh, if_false]
      simp only [true_iff]
      exact key.mp hh
  · rw [hlen]
    by_cases hh : (s.getDigestHasher calculate forceSandbox).host = [] <;> simp [hh]

/-- A concrete step used by the digest-length witness. -/
def c2WitnessStep : CoreStep :=
  mkCoreStep .package "p" true true [("A", "1")] [] [] [] [] [] none 0 false (some "x")

/-- A variant-id calculator returning 20-byte digests. -/
def c2WitnessCalc (t : CoreStep) : List Nat :=
  sha1 t.variantId

/-- Witness for C2 at a concrete step and calculator. -/
theorem claim_C2_witness :
    ((c2WitnessStep.getDigest c2WitnessCalc false).length = 40 ↔
      ((c2WitnessStep.isFingerprinted = true ∧ (c2WitnessStep.getSandbox false).isSome = true)
        ∨ (∃ ref ∈ c2WitnessStep.args, ref.refGetDestination.isValid = true ∧
            (c2WitnessCalc ref.refGetDestination).length = 40)))
    ∧ ((c2WitnessStep.getDigest c2WitnessCalc false).length = 40
        ∨ (c2WitnessStep.getDigest c2WitnessCalc false).length = 20) :=
  claim_C2_digest_length c2WitnessStep c2WitnessCalc false
    (fun t => Or.inl (sha1_length t.variantId))


/-- Keys of a filtered dict stay duplicate-free. -/
theorem nodup_keys_filter {β : Type} (p : String × β → Bool) {l : List (String × β)}
    (h : (l.map Prod.fst).Nodup) : ((l.filter p).map Prod.fst).Nodup :=
  h.sublist ((List.filter_sublist l).map Prod.fst)

/-- The digest of a raw step only reads the digest environment and the
tool table through their sorted views, so permuting either (with unique
keys) leaves the digest unchanged. -/
theorem getDigest_mk_perm (kind : StepKind) (pn : String) (iv det₁ det₂ : Bool)
    (env : List (String × String)) (args : List CoreRef) (scms : List Scm)
    (tk : List String) (sb : Option CoreSandbox) (mask : Nat) (inv : Bool)
    (ds : Option String) (vid₁ vid₂ : List Nat)
    (de₁ de₂ : List (String × String)) (pt₁ pt₂ : List (String × CoreTool))
    (calculate : CoreStep → List Nat) (force : Bool)
    (hde : de₁.Perm de₂) (hndde : (de₁.map Prod.fst).Nodup)
    (hpt : pt₁.Perm pt₂) (hndpt : (pt₁.map Prod.fst).Nodup) :
    (CoreStep.mk kind pn iv det₁ de₁ env args scms pt₁ tk sb mask inv ds vid₁).getDigest
        calculate force
      = (CoreStep.mk kind pn iv det₂ de₂ env args scms pt₂ tk sb mask inv ds vid₂).getDigest
        calculate force := by
  have htools :
      (CoreStep.mk kind pn iv det₁ de₁ env args scms pt₁ tk sb mask inv ds vid₁).getTools.Perm
        (CoreStep.mk kind pn iv det₂ de₂ env args scms pt₂ tk sb mask inv ds vid₂).getTools := by
    simp only [CoreStep.getTools, CoreStep.isValid, CoreStep.pkgTools, CoreStep.toolKeys]
    cases iv
    · simp
    · simp only [if_true]
      exact hpt.filter _
  have hsorttools :
      sortByKey (CoreStep.mk kind pn iv det₁ de₁ env args scms pt₁ tk sb mask inv ds vid₁).getTools
        = sortByKey (CoreStep.mk kind pn iv det₂ de₂ env args scms pt₂ tk sb mask inv ds vid₂).getTools := by
    apply sortByKey_eq_of_perm htools
    simp only [CoreStep.getTools, CoreStep.isValid, CoreStep.pkgTools, CoreStep.toolKeys]
    cases iv
    · simp
    · simp only [if_true]
      exact nodup_keys_filter _ hndpt
  have hlentools := htools.length_eq
  have hsortenv : sortByKey de₁ = sortByKey de₂ := sortByKey_eq_of_perm hde hndde
  have hlenenv := hde.length_eq
  unfold CoreStep.getDigest CoreStep.getDigestHasher
  simp only [CoreStep.getSandbox, CoreStep.isFingerprinted, CoreStep.isCheckoutStep,
    CoreStep.kind, CoreStep.fingerprintMask, CoreStep.sandboxInvariant, CoreStep.digestScript,
    CoreStep.digestEnv, CoreStep.args, CoreStep.pkgSandbox, CoreStep.isValid]
  rw [hsorttools, hlentools, hsortenv, hlenenv]

/-- C4: a step`s variant-id depends only on the digest script, the strong
digest environment, the tool table iterated in sorted name order, the
variant-ids of the valid args and the sandbox contribution; in particular,
inserting the same key-value pairs into the digest environment or the tool
map in a different order (unique keys, as in a Python dict) yields the
same digest bytes. -/
theorem claim_C4_variantId_insertion_order (kind : StepKind) (pn : String)
    (iv det : Bool) (env : List (String × String)) (args : List CoreRef)
    (scms : List Scm) (tk : List String) (sb : Option CoreSandbox) (mask : Nat)
    (inv : Bool) (ds : Option String)
    (de₁ de₂ : List (String × String)) (pt₁ pt₂ : List (String × CoreTool))
    (hde : de₁.Perm de₂) (hndde : (de₁.map Prod.fst).Nodup)
    (hpt : pt₁.Perm pt₂) (hndpt : (pt₁.map Prod.fst).Nodup) :
    (mkCoreStep kind pn iv det de₁ env args scms pt₁ tk sb mask inv ds).variantId
      = (mkCoreStep kind pn iv det de₂ env args scms pt₂ tk sb mask inv ds).variantId := by
  unfold mkCoreStep
  simp only [CoreStep.variantId]
  exact getDigest_mk_perm _ _ _ _ _ _ _ _ _ _ _ _ _ _ _ _ _ _ _ _ _ hde hndde hpt hndpt

/-- A concrete tool value for the C4 witness. -/
def c4Tool (path : String) : CoreTool :=
  CoreTool.mk default path [] false [] "" FpIf.absent

/-- Witness for C4: permuting a two-entry digest environment and a
two-entry tool map leaves the variant-id unchanged. -/
theorem claim_C4_witness :
    (mkCoreStep .package "p" true true [("A", "1"), ("B", "2")] [] [] []
        [("t1", c4Tool "x"), ("t2", c4Tool "y")] ["t1", "t2"] none 0 false
        (some "s")).variantId
      = (mkCoreStep .package "p" true true [("B", "2"), ("A", "1")] [] [] []
          [("t2", c4Tool "y"), ("t1", c4Tool "x")] ["t1", "t2"] none 0 false
          (some "s")).variantId :=
  claim_C4_variantId_insertion_order .package "p" true true [] [] [] ["t1", "t2"]
    none 0 false (some "s") [("A", "1"), ("B", "2")] [("B", "2"), ("A", "1")]
    [("t1", c4Tool "x"), ("t2", c4Tool "y")] [("t2", c4Tool "y"), ("t1", c4Tool "x")]
    (List.Perm.swap ("B", "2") ("A", "1") [])
    (by decide)
    (List.Perm.swap ("t2", c4Tool "y") ("t1", c4Tool "x") [])
    (by decide)


/-! ## C9: determinism propagation -/

/-- Core steps actually constructed through the `CoreStep.__init__`
protocol (`mkCoreStep`), with all of their dependency core steps likewise
constructed.  Every step built by the elaboration is of this shape. -/
inductive Built : CoreStep → Prop where
  | mk : ∀ (kind : StepKind) (pn : String) (iv det : Bool)
      (de env : List (String × String)) (args : List CoreRef) (scms : List Scm)
      (pt : List (String × CoreTool)) (tk : List String) (sb : Option CoreSandbox)
      (mask : Nat) (inv : Bool) (ds : Option String),
      (∀ d ∈ (mkCoreStep kind pn iv det de env args scms pt tk sb mask inv ds).getAllDepCoreSteps
          true, Built d) →
      Built (mkCoreStep kind pn iv det de env args scms pt tk sb mask inv ds)

/-- Reachability through `getAllDepCoreSteps` with the sandbox forced:
arguments, used tools` package steps and the sandbox step, transitively. -/
inductive Reach : CoreStep → CoreStep → Prop where
  | direct : ∀ s d, d ∈ s.getAllDepCoreSteps true → Reach s d
  | trans : ∀ s d e, Reach s d → Reach d e → Reach s e

/-- The stored deterministic flag of a constructed step is the input
determinism conjoined with the determinism of all dependency core steps. -/
theorem mkCoreStep_deterministic (kind : StepKind) (pn : String) (iv det : Bool)
    (de env : List (String × String)) (args : List CoreRef) (scms : List Scm)
    (pt : List (String × CoreTool)) (tk : List String) (sb : Option CoreSandbox)
    (mask : Nat) (inv : Bool) (ds : Option String) :
    (mkCoreStep kind pn iv det de env args scms pt tk sb mask inv ds).deterministic
      = (det && ((mkCoreStep kind pn iv det de env args scms pt tk sb mask inv
          ds).getAllDepCoreSteps true).all CoreStep.isDeterministicM) := rfl

theorem built_reach {s d : CoreStep} (hb : Built s) (hr : Reach s d) : Built d := by
  induction hr with
  | direct s d hd =>
    cases hb with
    | mk kind pn iv det de env args scms pt tk sb mask inv ds hdeps => exact hdeps d hd
  | trans s d e h1 h2 ih1 ih2 => exact ih2 (ih1 hb)

theorem built_det_dep {s : CoreStep} (hb : Built s) (hdet : s.deterministic = true) :
    ∀ d ∈ s.getAllDepCoreSteps true, d.isDeterministicM = true := by
  cases hb with
  | mk kind pn iv det de env args scms pt tk sb mask inv ds hdeps =>
    intro d hd
    rw [mkCoreStep_deterministic] at hdet
    have := (Bool.and_eq_true _ _).mp hdet
    exact List.all_eq_true.mp this.2 d hd

theorem isDetM_flag {d : CoreStep} (h : d.isDeterministicM = true) :
    d.deterministic = true := by
  unfold CoreStep.isDeterministicM at h
  exact ((Bool.and_eq_true _ _).mp h).1

/-- C9: a constructed core step`s deterministic flag is true only if its
own determinism input is true, and only if every dependency core step
reachable through its args, its used tools` package steps and its sandbox
step (computed with the sandbox forced) is deterministic. -/
theorem claim_C9_deterministic_closure :
    (∀ (kind : StepKind) (pn : String) (iv detInput : Bool)
        (de env : List (String × String)) (args : List CoreRef) (scms : List Scm)
        (pt : List (String × CoreTool)) (tk : List String) (sb : Option CoreSandbox)
        (mask : Nat) (inv : Bool) (ds : Option String),
        (mkCoreStep kind pn iv detInput de env args scms pt tk sb mask inv
          ds).deterministic = true →
        detInput = true)
    ∧ (∀ s d : CoreStep, Built s → s.deterministic = true → Reach s d →
        d.isDeterministicM = true) := by
  constructor
  · intro kind pn iv detInput de env args scms pt tk sb mask inv ds h
    rw [mkCoreStep_deterministic] at h
    exact ((Bool.and_eq_true _ _).mp h).1
  · intro s d hb hdet hr
    induction hr with
    | direct s d hd => exact built_det_dep hb hdet _ hd
    | trans s d e h1 h2 ih1 ih2 =>
      have hdm := ih1 hb hdet
      exact ih2 (built_reach hb h1) (isDetM_flag hdm)

/-- A dependency-free package step for the C9 witness. -/
def c9Dep : CoreStep :=
  mkCoreStep .package "d" true true [] [] [] [] [] [] none 0 false (some "x")

/-- A build step whose only argument is `c9Dep`. -/
def c9Step : CoreStep :=
  mkCoreStep .build "p" true true [] [] [CoreRef.mk c9Dep []] [] [] [] none 0 false (some "y")

theorem c9Dep_built : Built c9Dep :=
  Built.mk .package "d" true true [] [] [] [] [] [] none 0 false (some "x")
    (fun d hd => by
      have he : (mkCoreStep .package "d" true true [] [] [] [] [] [] none 0 false
          (some "x")).getAllDepCoreSteps true = [] := rfl
      rw [he] at hd
      exact absurd hd (List.not_mem_nil d))

theorem c9Step_built : Built c9Step :=
  Built.mk .build "p" true true [] [] [CoreRef.mk c9Dep []] [] [] [] none 0 false (some "y")
    (fun d hd => by
      have : d = c9Dep := by
        have he : (mkCoreStep .build "p" true true [] [] [CoreRef.mk c9Dep []] [] [] []
            none 0 false (some "y")).getAllDepCoreSteps true = [c9Dep] := rfl
        rw [he] at hd
        simpa using hd
      rw [this]
      exact c9Dep_built)

/-- Witness for C9 at a concrete two-step graph. -/
theorem claim_C9_witness :
    Built c9Step ∧ c9Step.deterministic = true ∧ Reach c9Step c9Dep
      ∧ c9Dep.isDeterministicM = true := by
  have hmem : c9Dep ∈ c9Step.getAllDepCoreSteps true := by
    have he : c9Step.getAllDepCoreSteps true = [c9Dep] := rfl
    rw [he]
    exact List.mem_singleton.mpr rfl
  refine ⟨c9Step_built, by decide, Reach.direct _ _ hmem, ?_⟩
  exact claim_C9_deterministic_closure.2 c9Step c9Dep c9Step_built (by decide)
    (Reach.direct _ _ hmem)


/-! ## C10: nested dependency conditions -/

/-- Wrap a dependency entry into nested `depends` groups, the outermost
condition first. -/
def nestDep (conds : List CondExpr) (inner : RawDep) : RawDep :=
  conds.foldr (fun c d => RawDep.record none (some [d]) none none none (some c)) inner

/-- One composition step of `__parseEntry`: an inner `if` is conjoined to
the inherited condition (`$(and,outer,inner)`). -/
def condCompose (acc : Option CondExpr) (c : CondExpr) : Option CondExpr :=
  match acc with
  | none => some c
  | some a => some (CondExpr.and a c)

/-- The condition accumulated over a chain of `if` expressions. -/
def conjChainFrom (acc : Option CondExpr) (cs : List CondExpr) : Option CondExpr :=
  cs.foldl condCompose acc

/-- The conjunction of a chain of `if` expressions, composed as
`__parseEntry` composes them. -/
def conjChain (cs : List CondExpr) : Option CondExpr :=
  conjChainFrom none cs

theorem parseEntry_nest (n : String) (ci : Option CondExpr)
    (env : List (String × String)) (fwd : Bool) (use : List String) :
    ∀ (outers : List CondExpr) (cond0 : Option CondExpr),
    parseEntry (nestDep outers (RawDep.record (some n) none none none none ci))
        env fwd use cond0
      = .ok [mkDependency n env fwd use
          (conjChainFrom cond0 (outers ++ ci.toList))] := by
  intro outers
  induction outers with
  | nil =>
    intro cond0
    cases ci with
    | none => rfl
    | some c => cases cond0 <;> rfl
  | cons c cs ih =>
    intro cond0
    have key : ∀ k : Option CondExpr,
        parseEntriesGo [nestDep cs (RawDep.record (some n) none none none none ci)]
            env fwd use k
          = .ok [mkDependency n env fwd use (conjChainFrom k (cs ++ ci.toList))] := by
      intro k
      unfold parseEntriesGo
      rw [ih k]
      unfold parseEntriesGo
      simp
    cases cond0 with
    | none =>
      show parseEntriesGo [nestDep cs (RawDep.record (some n) none none none none ci)]
          env fwd use (some c) = _
      exact key (some c)
    | some c0 =>
      show parseEntriesGo [nestDep cs (RawDep.record (some n) none none none none ci)]
          env fwd use (some (CondExpr.and c0 c)) = _
      exact key (some (CondExpr.and c0 c))

theorem eval_and_split (e : Env) (a b : CondExpr) :
    e.evaluate (CondExpr.and a b) = .ok true ↔
      e.evaluate a = .ok true ∧ e.evaluate b = .ok true := by
  have step : e.evaluate (CondExpr.and a b)
      = (match e.evaluate a with
         | .error er => .error er
         | .ok x =>
            match e.evaluate b with
            | .error er => .error er
            | .ok y => .ok (x && y)) := rfl
  rw [step]
  cases ha : e.evaluate a with
  | error er => simp
  | ok x =>
    cases hb : e.evaluate b with
    | error er => simp
    | ok y => cases x <;> cases y <;> simp

theorem evalCondOpt_compose (e : Env) (acc : Option CondExpr) (c : CondExpr) :
    evalCondOpt e (condCompose acc c) = .ok true ↔
      (evalCondOpt e acc = .ok true ∧ e.evaluate c = .ok true) := by
  cases acc with
  | none => simp [condCompose, evalCondOpt]
  | some a =>
    simp only [condCompose, evalCondOpt]
    exact eval_and_split e a c

theorem evalCondOpt_chain (e : Env) :
    ∀ (cs : List CondExpr) (acc : Option CondExpr),
    evalCondOpt e (conjChainFrom acc cs) = .ok true ↔
      (evalCondOpt e acc = .ok true ∧ ∀ c ∈ cs, e.evaluate c = .ok true) := by
  intro cs
  induction cs with
  | nil => intro acc; simp [conjChainFrom]
  | cons c cs ih =>
    intro acc
    have : conjChainFrom acc (c :: cs) = conjChainFrom (condCompose acc c) cs := rfl
    rw [this, ih, evalCondOpt_compose]
    constructor
    · rintro ⟨⟨h1, h2⟩, h3⟩
      exact ⟨h1, fun d hd => by
        rcases List.mem_cons.mp hd with h | h
        · rw [h]; exact h2
        · exact h3 d h⟩
    · rintro ⟨h1, h2⟩
      exact ⟨⟨h1, h2 c (List.mem_cons_self c cs)⟩,
        fun d hd => h2 d (List.mem_cons_of_mem c hd)⟩

/-- C10: a dependency entry nested inside `depends` blocks gets the
conjunction of its own `if` and every enclosing `if` (composed pairwise as
`$(and,outer,inner)` by `__parseEntry`); the conjunction evaluates to true
in the caller`s environment exactly when every constituent does, and the
dependency loop skips (does not recurse into) a dependency whose effective
condition evaluates to false, only recording the variables the condition
read. -/
theorem claim_C10_nested_conditions :
    (∀ (outers : List CondExpr) (n : String) (ci : Option CondExpr)
        (env : List (String × String)) (fwd : Bool) (use : List String),
        parseEntry (nestDep outers (RawDep.record (some n) none none none none ci))
            env fwd use none
          = .ok [mkDependency n env fwd use (conjChain (outers ++ ci.toList))])
    ∧ (∀ (e : Env) (cs : List CondExpr),
        evalCondOpt e (conjChain cs) = .ok true ↔ ∀ c ∈ cs, e.evaluate c = .ok true)
    ∧ (∀ (recurse : RecurseFn) (rs : RecipeSet) (r : ResolvedRecipe)
        (sandboxEnabled : Bool) (stack : List String) (ls : DepLoopState)
        (dep : Dependency),
        evalCondOpt ls.env dep.condition = .ok false →
        processDep recurse rs r sandboxEnabled stack ls dep
          = .ok { ls with tE := ls.tE ++ condOptReads dep.condition }) := by
  refine ⟨?_, ?_, ?_⟩
  · intro outers n ci env fwd use
    exact parseEntry_nest n ci env fwd use outers none
  · intro e cs
    rw [conjChain, evalCondOpt_chain]
    simp [evalCondOpt]
  · intro recurse rs r sandboxEnabled stack ls dep hcond
    unfold processDep
    rw [hcond]
    rfl

/-- A dependency loop state for the C10 witness. -/
def c10LoopState : DepLoopState :=
  ⟨[], [], [], [], [], [], ⟨[]⟩, [], none, ⟨[]⟩, [], none, [], [], [], [], [], ElabState.initial⟩

/-- A recurse function that is never reached. -/
def c10NoRecurse : RecurseFn :=
  fun _ _ _ _ _ _ _ _ => .error ⟨"unreachable", []⟩

/-- A dependency with a false condition. -/
def c10FalseDep : Dependency :=
  mkDependency "x" [] false ["result"] (some (CondExpr.lit false))

/-- A minimal resolved recipe for the C10 witness (never inspected by the
skipped dependency). -/
def c10Recipe : ResolvedRecipe :=
  ⟨"r", "r", [], none, none, none, true, false, true, [], [], [], none, [], [],
   [], [], [], [], [], [], [], [], [], [], none, none, [], [], none, none,
   some "", some "da39a3ee5e6b4b0d3255bfef95601890afd80709", [], [], true,
   none, none⟩

/-- Witness for C10 at concrete nesting, conditions and loop state. -/
theorem claim_C10_witness :
    (parseEntry (nestDep [CondExpr.lit true]
          (RawDep.record (some "a") none none none none (some (CondExpr.lit false))))
        [] false ["result"] none
      = .ok [mkDependency "a" [] false ["result"]
          (conjChain ([CondExpr.lit true] ++ (some (CondExpr.lit false)).toList))])
    ∧ (evalCondOpt ⟨[]⟩ (conjChain [CondExpr.lit true, CondExpr.lit false]) = .ok true ↔
        ∀ c ∈ [CondExpr.lit true, CondExpr.lit false], Env.evaluate ⟨[]⟩ c = .ok true)
    ∧ (processDep c10NoRecurse ⟨[], ⟨false, false, false, false⟩, [], []⟩
          c10Recipe false [] c10LoopState c10FalseDep
        = .ok { c10LoopState with
            tE := c10LoopState.tE ++ condOptReads c10FalseDep.condition }) := by
  refine ⟨claim_C10_nested_conditions.1 [CondExpr.lit true] "a"
      (some (CondExpr.lit false)) [] false ["result"], ?_, ?_⟩
  · exact claim_C10_nested_conditions.2.1 ⟨[]⟩ [CondExpr.lit true, CondExpr.lit false]
  · exact claim_C10_nested_conditions.2.2 c10NoRecurse _ _ false [] c10LoopState
      c10FalseDep rfl


/-! ## C1: package deduplication key -/

theorem dictGet_map_replace {κ β : Type} [DecidableEq κ] (m : List (κ × β)) (k : κ) (v : β)
    (h : (m.map Prod.fst).contains k = true) :
    dictGet (m.map (fun p => if p.1 = k then (k, v) else p)) k = some v := by
  induction m with
  | nil => simp at h
  | cons p t ih =>
    by_cases hp : p.1 = k
    · rw [List.map_cons, if_pos hp]
      simp [dictGet]
    · have h2 : (t.map Prod.fst).contains k = true := by
        simp only [List.map_cons, List.contains_cons] at h
        rcases Bool.or_eq_true_iff.mp h with h | h
        · exact absurd (beq_iff_eq.mp h).symm hp
        · exact h
      rw [List.map_cons, if_neg hp]
      simp [dictGet, hp, ih h2]

theorem dictGet_eq_none_of_not_contains {κ β : Type} [DecidableEq κ]
    (m : List (κ × β)) (k : κ)
    (h : (m.map Prod.fst).contains k = false) : dictGet m k = none := by
  induction m with
  | nil => rfl
  | cons p t ih =>
    simp only [List.map_cons, List.contains_cons, Bool.or_eq_false_iff] at h
    have hp : ¬ p.1 = k := fun hk => by simp [hk] at h
    simp [dictGet, hp, ih h.2]

theorem dictGet_append_of_none {κ β : Type} [DecidableEq κ]
    (m l : List (κ × β)) (k : κ)
    (h : dictGet m k = none) : dictGet (m ++ l) k = dictGet l k := by
  induction m with
  | nil => rfl
  | cons p t ih =>
    by_cases hp : p.1 = k
    · simp [dictGet, hp] at h
    · simp only [dictGet, hp, if_neg hp, List.cons_append] at h ⊢
      exact ih h

theorem dictGet_dictSet_self {κ β : Type} [DecidableEq κ]
    (m : List (κ × β)) (k : κ) (v : β) :
    dictGet (dictSet m k v) k = some v := by
  unfold dictSet
  cases hc : (m.map Prod.fst).contains k with
  | true => simpa [hc] using dictGet_map_replace m k v hc
  | false =>
    simp only [hc, Bool.false_eq_true, if_neg, ite_false]
    rw [dictGet_append_of_none m [(k, v)] k (dictGet_eq_none_of_not_contains m k hc)]
    simp [dictGet]

/-- The policies with every flag off. -/
def tpol : Policies := ⟨false, false, false, false⟩

/-- A recipe set over the given resolved recipes and default policies. -/
def trs (l : List (String × ResolvedRecipe)) : RecipeSet := ⟨l, tpol, [], []⟩

/-- Extract a resolved recipe, defaulting on error (never taken on the
concrete recipes below). -/
def rrOf (x : Res ResolvedRecipe) : ResolvedRecipe :=
  match x with
  | .ok r => r
  | .error _ => ⟨"", "", [], none, none, none, false, false, false, [], [], [],
      none, [], [], [], [], [], [], [], [], [], [], [], [], none, none, [], [],
      none, none, none, none, [], [], true, none, none⟩

/-- A library recipe whose `provideVars` reads `FOO`, a variable that is
not a package variable: two call-sites differing only in `FOO` produce the
same package-step Variant-Id but different provided environments, hence
different Result-Ids. -/
def libRaw : Recipe :=
  { emptyRecipe "lib" with
      provideVars := [("V", SValue.var "FOO")]
      packageScript := some "true"
      packageDigestScript := some "x" }

def libRR : ResolvedRecipe := rrOf (libRaw.resolveClasses [] tpol)

def c1rs : RecipeSet := trs [("lib", libRR)]

/-- First elaboration of `lib` with `FOO=1`. -/
def c1run1 : Res PrepResult :=
  prepare 5 c1rs libRR ⟨[("FOO", "1")]⟩ false [] none [] [] ElabState.initial

/-- Second elaboration of `lib` with `FOO=2`, continuing from the first
run`s state. -/
def c1run2 : Res PrepResult :=
  match c1run1 with
  | .ok r => prepare 5 c1rs libRR ⟨[("FOO", "2")]⟩ false [] none [] [] r.state
  | .error e => .error e

set_option maxRecDepth 200000 in
/-- Counterexample to C1 as stated: the two call-sites produce package
steps with identical Variant-Ids, yet `prepare` returns two distinct
`CorePackage` instances (`pkgId` 1 and 2) because deduplication is keyed
by the Result-Id, which also covers the provided environment. -/
theorem claim_C1_counterexample :
    (match c1run1, c1run2 with
     | .ok a, .ok b =>
        some (a.pkg.packageStep.variantId == b.pkg.packageStep.variantId,
          a.pkg.pkgId, b.pkg.pkgId, a.pkg.providedEnv, b.pkg.providedEnv)
     | _, _ => none)
      = some (true, 1, 2, [("V", "1")], [("V", "2")]) := by
  rfl

/-- C1 (amended): `Recipe.prepare` deduplicates freshly elaborated
packages by the package step`s Result-Id, not its Variant-Id: whenever a
second registration carries the same Result-Id as an earlier one for the
same recipe, `registerCorePackage` returns the earlier `CorePackage`
instance and drops the fresh one. -/
theorem claim_C1_dedup_by_result_id (st : ElabState) (name : String)
    (p q : CorePackage) (e1 e2 : List (String × String)) (t1 t2 : ToolMap)
    (s1 s2 : States) (sb1 sb2 : Option CoreSandbox)
    (tE1 tT1 sub1 tE2 tT2 sub2 : List String)
    (h : q.resultId = p.resultId) :
    (registerCorePackage
        (registerCorePackage st name p e1 t1 s1 sb1 tE1 tT1 sub1).2
        name q e2 t2 s2 sb2 tE2 tT2 sub2).1
      = (registerCorePackage st name p e1 t1 s1 sb1 tE1 tT1 sub1).1 := by
  unfold registerCorePackage
  simp only [stateById]
  cases hx : dictGet ((dictGet st.byId name).getD []) p.resultId with
  | some w =>
    simp only [hx, h]
  | none =>
    simp only [hx, h]
    rw [show (dictGet (dictSet st.byId name
        (((dictGet st.byId name).getD []) ++ [(p.resultId, p)])) name).getD []
      = ((dictGet st.byId name).getD []) ++ [(p.resultId, p)] from by
        rw [dictGet_dictSet_self]; rfl]
    rw [dictGet_append_of_none _ _ _ hx]
    simp [dictGet]

/-- A package that differs from the default one only in its identity. -/
def c1q : CorePackage := { (default : CorePackage) with pkgId := 7 }

set_option maxRecDepth 100000 in
/-- Witness for the amended C1 at two concrete packages with equal
Result-Ids but different identities. -/
theorem claim_C1_witness :
    c1q.resultId = (default : CorePackage).resultId ∧
    (registerCorePackage
        (registerCorePackage ElabState.initial "lib" default [] [] [] none [] [] []).2
        "lib" c1q [] [] [] none [] [] []).1
      = (registerCorePackage ElabState.initial "lib" default [] [] [] none [] [] []).1 :=
  ⟨rfl, claim_C1_dedup_by_result_id ElabState.initial "lib" default c1q
    [] [] [] [] [] [] none none [] [] [] [] [] [] rfl⟩


/-! ## C3: prepare memoization -/

/-- A fresh matcher matches the very inputs it was built from. -/
theorem mkPackageMatcher_matches_self (p : CorePackage)
    (envVars : List (String × String)) (toolVars : ToolMap)
    (tE tT : List String) (sts : States) (sb : Option CoreSandbox)
    (sub : List String) :
    (mkPackageMatcher p envVars toolVars tE tT sts sb sub).matches
        envVars toolVars sts sb = true := by
  unfold mkPackageMatcher PackageMatcher.matches
  simp [List.all_eq_true]

/-- Registration pushes exactly one matcher, built from the call-site
inputs and the reusable package, to the front of the recipe`s list. -/
theorem stateMatchers_register (st : ElabState) (name : String) (p : CorePackage)
    (e : List (String × String)) (t : ToolMap) (s : States)
    (sb : Option CoreSandbox) (tE tT sub : List String) :
    stateMatchers (registerCorePackage st name p e t s sb tE tT sub).2 name
      = mkPackageMatcher (registerCorePackage st name p e t s sb tE tT sub).1
          e t tE tT s sb sub :: stateMatchers st name := by
  unfold registerCorePackage
  cases hx : dictGet (stateById st name) p.resultId with
  | some w =>
    simp only [hx, stateMatchers, dictGet_dictSet_self, Option.getD_some]
  | none =>
    simp only [hx, stateMatchers, dictGet_dictSet_self, Option.getD_some]

/-- A call whose inputs match a stored `PackageMatcher` returns the
stored `CorePackage` with the elaboration state unchanged. -/
theorem prepare_hit (fuel : Nat) (rs : RecipeSet) (r : ResolvedRecipe)
    (env : Env) (sbE : Bool) (sts : States) (sb : Option CoreSandbox)
    (tools : ToolMap) (stack : List String) (st : ElabState) (m : PackageMatcher)
    (hm : memoFind (stateMatchers st r.packageName) env.vars tools sts sb = some m)
    (hstk : listInter stack m.subTreePackages = []) :
    prepare (fuel + 1) rs r env sbE sts sb tools stack st
      = .ok ⟨m.corePackage, m.subTreePackages, m.env.map Prod.fst,
          m.tools.map Prod.fst, st⟩ := by
  unfold prepare
  rw [hm]
  simp [hstk]

/-- A second call with the same inputs as an earlier successful call
returns the earlier call`s package, sub-tree and touched names, and leaves
the state unchanged. -/
theorem prepare_rehit (fuel1 fuel2 : Nat) (rs : RecipeSet) (r : ResolvedRecipe)
    (env : Env) (sbE : Bool) (sts : States) (sb : Option CoreSandbox)
    (tools : ToolMap) (stack : List String) (st0 : ElabState) (res1 : PrepResult)
    (hft : filterToolsOf r tools = tools)
    (h1 : prepare fuel1 rs r env sbE sts sb tools stack st0 = .ok res1)
    (hstk : listInter stack res1.subTree = []) :
    prepare (fuel2 + 1) rs r env sbE sts sb tools stack res1.state
      = .ok ⟨res1.pkg, res1.subTree, res1.touchedEnv, res1.touchedTools,
          res1.state⟩ := by
  cases fuel1 with
  | zero => exact absurd h1 (by simp [prepare])
  | succ f =>
    unfold prepare at h1
    split at h1
    · rename_i m h0
      split at h1
      · cases h1
      · rename_i hc
        cases h1
        have hce : listInter stack m.subTreePackages = [] :=
          List.isEmpty_iff.mp (by
            cases hh : (listInter stack m.subTreePackages).isEmpty with
            | true => rfl
            | false => exact absurd (by simp [hh]) hc)
        exact prepare_hit fuel2 rs r env sbE sts sb tools stack st0 m h0 hce
    · rename_i h0
      split at h1
      · cases h1
      · rename_i p subTree tE tT st1 helab
        cases h1
        simp only at hstk
        have hm2 : memoFind (stateMatchers
            (registerCorePackage st1 r.packageName p env.vars
              (filterToolsOf r tools) sts sb tE tT subTree).2 r.packageName)
              env.vars tools sts sb
            = some (mkPackageMatcher
                (registerCorePackage st1 r.packageName p env.vars
                  (filterToolsOf r tools) sts sb tE tT subTree).1
                env.vars tools tE tT sts sb subTree) := by
          rw [stateMatchers_register, hft]
          unfold memoFind
          rw [List.find?_cons_of_pos]
          exact mkPackageMatcher_matches_self _ env.vars tools tE tT sts sb subTree
        rw [prepare_hit fuel2 rs r env sbE sts sb tools stack _ _ hm2 hstk]
        simp [mkPackageMatcher, List.map_map, Function.comp_def]


/-- Extract a `prepare` result, defaulting on error (never taken below). -/
def resOf (x : Res PrepResult) : PrepResult :=
  match x with
  | .ok r => r
  | .error _ => default

/-- A minimal recipe with only a package script. -/
def c3Raw : Recipe :=
  { emptyRecipe "hello" with packageScript := some "t", packageDigestScript := some "t" }

/-- The resolved form of `c3Raw`. -/
def c3RR : ResolvedRecipe := rrOf (c3Raw.resolveClasses [] tpol)

/-- A recipe set holding only `hello`. -/
def c3rs : RecipeSet := trs [("hello", c3RR)]

/-- The result of a first elaboration of `hello`. -/
def c3res : PrepResult :=
  resOf (prepare 5 c3rs c3RR ⟨[]⟩ false [] none [] [] ElabState.initial)

/-- The matcher stored by the first elaboration of `hello`. -/
def c3m : PackageMatcher := (stateMatchers c3res.state "hello").headD default

/-- C3: a call to `prepare` whose input environment, tools, states and
sandbox compare equal to a stored `PackageMatcher` entry returns that
entry`s `CorePackage` with the state unchanged; in particular a repeat of
an earlier successful call (same inputs, tool filter a no-op) returns the
identical `CorePackage` instance, and a miss registers exactly one new
matcher, so the matcher list grows by at most one entry over the two
calls. -/
theorem claim_C3_memoized_reuse :
    (∀ (fuel : Nat) (rs : RecipeSet) (r : ResolvedRecipe) (env : Env) (sbE : Bool)
        (sts : States) (sb : Option CoreSandbox) (tools : ToolMap)
        (stack : List String) (st : ElabState) (m : PackageMatcher),
      memoFind (stateMatchers st r.packageName) env.vars tools sts sb = some m →
      listInter stack m.subTreePackages = [] →
      prepare (fuel + 1) rs r env sbE sts sb tools stack st
        = .ok ⟨m.corePackage, m.subTreePackages, m.env.map Prod.fst,
            m.tools.map Prod.fst, st⟩)
    ∧ (∀ (fuel1 fuel2 : Nat) (rs : RecipeSet) (r : ResolvedRecipe) (env : Env)
        (sbE : Bool) (sts : States) (sb : Option CoreSandbox) (tools : ToolMap)
        (stack : List String) (st0 : ElabState) (res1 : PrepResult),
      filterToolsOf r tools = tools →
      prepare fuel1 rs r env sbE sts sb tools stack st0 = .ok res1 →
      listInter stack res1.subTree = [] →
      prepare (fuel2 + 1) rs r env sbE sts sb tools stack res1.state
        = .ok ⟨res1.pkg, res1.subTree, res1.touchedEnv, res1.touchedTools,
            res1.state⟩)
    ∧ (∀ (st : ElabState) (name : String) (p : CorePackage)
        (e : List (String × String)) (t : ToolMap) (s : States)
        (sb : Option CoreSandbox) (tE tT sub : List String),
      (stateMatchers (registerCorePackage st name p e t s sb tE tT sub).2 name).length
        = (stateMatchers st name).length + 1) :=
  ⟨prepare_hit, prepare_rehit,
   fun st name p e t s sb tE tT sub => by
     rw [stateMatchers_register]
     rfl⟩

set_option maxRecDepth 200000 in
/-- Witness for C3: two elaborations of the `hello` recipe; the second
returns the first`s package with the state unchanged. -/
theorem claim_C3_witness :
    (prepare 5 c3rs c3RR ⟨[]⟩ false [] none [] [] ElabState.initial = .ok c3res
      ∧ filterToolsOf c3RR [] = []
      ∧ listInter [] c3res.subTree = []
      ∧ prepare 1 c3rs c3RR ⟨[]⟩ false [] none [] [] c3res.state
          = .ok ⟨c3res.pkg, c3res.subTree, c3res.touchedEnv, c3res.touchedTools,
              c3res.state⟩)
    ∧ (memoFind (stateMatchers c3res.state "hello") [] [] [] none = some c3m
      ∧ listInter [] c3m.subTreePackages = []
      ∧ prepare 3 c3rs c3RR ⟨[]⟩ false [] none [] [] c3res.state
          = .ok ⟨c3m.corePackage, c3m.subTreePackages, c3m.env.map Prod.fst,
              c3m.tools.map Prod.fst, c3res.state⟩)
    ∧ (stateMatchers
          (registerCorePackage ElabState.initial "x" default [] [] [] none [] [] []).2
          "x").length
        = (stateMatchers ElabState.initial "x").length + 1 :=
  ⟨⟨rfl, rfl, rfl,
    claim_C3_memoized_reuse.2.1 5 0 c3rs c3RR ⟨[]⟩ false [] none [] []
      ElabState.initial c3res rfl rfl rfl⟩,
   ⟨rfl, rfl,
    claim_C3_memoized_reuse.1 2 c3rs c3RR ⟨[]⟩ false [] none [] [] c3res.state
      c3m rfl rfl⟩,
   claim_C3_memoized_reuse.2.2 ElabState.initial "x" default [] [] [] none [] [] []⟩


/-! ## C6: step validity -/

/-- A recipe whose only checkout contribution is an SCM guarded by a
false `if` condition. -/
def c6Raw : Recipe :=
  { emptyRecipe "scmpkg" with
      checkoutSCMs := [⟨"src", some (CondExpr.lit false), true, "d"⟩] }

/-- The resolved form of `c6Raw`. -/
def c6RR : ResolvedRecipe := rrOf (c6Raw.resolveClasses [] tpol)

/-- A recipe set holding only `scmpkg`. -/
def c6rs : RecipeSet := trs [("scmpkg", c6RR)]

/-- The elaboration of `scmpkg`. -/
def c6res : PrepResult :=
  resOf (prepare 5 c6rs c6RR ⟨[]⟩ false [] none [] [] ElabState.initial)

set_option maxRecDepth 200000 in
/-- Counterexample to C6 as stated: `scmpkg` contributes an SCM along its
class chain (`checkoutSCMs` is nonempty) and no checkout script, yet the
elaborated checkout step is invalid, because the SCM`s false `if`
condition removed it before validity was decided.  The package step is
valid. -/
theorem claim_C6_counterexample :
    c6RR.checkoutSCMs.isEmpty = false
    ∧ c6RR.checkoutScript = none
    ∧ prepare 5 c6rs c6RR ⟨[]⟩ false [] none [] [] ElabState.initial = .ok c6res
    ∧ c6res.pkg.checkoutStep.isValid = false
    ∧ c6res.pkg.packageStep.isValid = true := by
  refine ⟨rfl, rfl, rfl, rfl, rfl⟩

/-- C6 (amended): the package step is valid iff the resolved recipe has a
package script, and `resolveClasses` always defaults a missing package
script to the empty script, so elaborated package steps are always valid;
the checkout step is valid iff a checkout script exists or at least one
SCM survives the `if` filter evaluated in the package environment. -/
theorem claim_C6_step_validity :
    (∀ (rs : RecipeSet) (r : ResolvedRecipe) (tools : ToolMap)
        (sandbox : Option CoreSandbox) (mask : Nat) (env : Env) (buildStep : CoreStep),
      (mkPackageStepOf rs r tools sandbox mask env buildStep).isValid
        = r.packageScript.isSome)
    ∧ (∀ (rw : Recipe) (classes : List (String × Recipe)) (policies : Policies)
        (rr : ResolvedRecipe),
      rw.resolveClasses classes policies = .ok rr → rr.packageScript.isSome = true)
    ∧ (∀ (rs : RecipeSet) (r : ResolvedRecipe) (tools : ToolMap)
        (sandbox : Option CoreSandbox) (mask : Nat) (env : Env)
        (step : CoreStep) (reads : List String) (scms : List Scm),
      mkCheckoutStepOf rs r tools sandbox mask env = .ok (step, reads) →
      filterScms env r.checkoutSCMs = .ok scms →
      step.isValid = (r.checkoutScript.isSome || !scms.isEmpty)) := by
  refine ⟨fun rs r tools sandbox mask env buildStep => rfl, ?_, ?_⟩
  · intro rw classes policies rr h
    unfold Recipe.resolveClasses at h
    split at h
    · cases h
    · unfold_let at h
      split at h
      · cases h
      · have hps := congrArg ResolvedRecipe.packageScript (Except.ok.inj h)
        rw [← hps]
        dsimp only
        split
        · rfl
        · rfl
  · intro rs r tools sandbox mask env step reads scms h hfs
    unfold mkCheckoutStepOf at h
    split at h
    · rw [hfs] at h
      split at h
      · rename_i heq
        cases heq
      · rename_i rest heq
        cases heq
        split at h
        · cases h
        · simp only [Except.ok.injEq, Prod.mk.injEq] at h
          rw [← h.1]
          rfl
    · rename_i hcond
      have hempty : r.checkoutSCMs.isEmpty = true := by
        cases hie : r.checkoutSCMs.isEmpty with
        | true => rfl
        | false => exact absurd (by simp [hie]) hcond
      have hscms : scms = [] := by
        cases he : r.checkoutSCMs with
        | nil =>
          rw [he] at hfs
          cases hfs
          rfl
        | cons a l => rw [he] at hempty; cases hempty
      have hcs : r.checkoutScript.isSome = false := by
        cases hie : r.checkoutScript.isSome with
        | false => rfl
        | true => exact absurd (by simp [hie]) hcond
      simp only [Except.ok.injEq, Prod.mk.injEq] at h
      rw [← h.1, hscms, hcs]
      rfl


/-- The checkout step built for `scmpkg`. -/
def c6chk : CoreStep × List String :=
  match mkCheckoutStepOf c6rs c6RR [] none 0 ⟨[]⟩ with
  | .ok p => p
  | .error _ => (default, [])

set_option maxRecDepth 200000 in
/-- Witness for C6 on the `scmpkg` recipe: package step validity follows
the defaulted package script; the filtered SCM list is empty and the
checkout step invalid. -/
theorem claim_C6_witness :
    ((mkPackageStepOf c6rs c6RR [] none 0 ⟨[]⟩ default).isValid
        = c6RR.packageScript.isSome)
    ∧ (c6Raw.resolveClasses [] tpol = .ok c6RR ∧ c6RR.packageScript.isSome = true)
    ∧ (mkCheckoutStepOf c6rs c6RR [] none 0 ⟨[]⟩ = .ok c6chk
       ∧ filterScms ⟨[]⟩ c6RR.checkoutSCMs = .ok []
       ∧ c6chk.1.isValid = (c6RR.checkoutScript.isSome || !(List.isEmpty ([] : List Scm)))) :=
  ⟨claim_C6_step_validity.1 c6rs c6RR [] none 0 ⟨[]⟩ default,
   ⟨rfl, claim_C6_step_validity.2.1 c6Raw [] tpol c6RR rfl⟩,
   ⟨rfl, rfl,
    claim_C6_step_validity.2.2 c6rs c6RR [] none 0 ⟨[]⟩ c6chk.1 c6chk.2 [] rfl rfl⟩⟩


/-! ## C5: cycle detection -/

/-- Direct recipe-level dependency: recipe `x` names `y` in its `depends`
list. -/
def dependsOnB (rs : RecipeSet) (x y : String) : Bool :=
  match dictGet rs.recipes x with
  | some r => (r.deps.map (fun d => d.recipe)).contains y
  | none => false

/-- Recipe `a`, depending on `b`. -/
def aRaw : Recipe :=
  { emptyRecipe "a" with deps := [mkDependency "b" [] false ["result", "deps"] none] }

/-- Recipe `b`, depending on `a`. -/
def bRaw : Recipe :=
  { emptyRecipe "b" with deps := [mkDependency "a" [] false ["result", "deps"] none] }

/-- The resolved form of `aRaw`. -/
def aRR : ResolvedRecipe := rrOf (aRaw.resolveClasses [] tpol)

/-- The resolved form of `bRaw`. -/
def bRR : ResolvedRecipe := rrOf (bRaw.resolveClasses [] tpol)

/-- A root recipe that does not reach the `a`/`b` cycle. -/
def rootRaw : Recipe :=
  { emptyRecipe "r" with
      root := some true
      packageScript := some "t"
      packageDigestScript := some "t" }

/-- The resolved form of `rootRaw`. -/
def rootRR : ResolvedRecipe := rrOf (rootRaw.resolveClasses [] tpol)

/-- A recipe set with an `a`/`b` dependency cycle unreachable from the
only root `r`. -/
def cycRs : RecipeSet := trs [("a", aRR), ("b", bRR), ("r", rootRR)]

set_option maxRecDepth 400000 in
/-- Counterexample to C5 as stated: `cycRs` contains a recipe (`a`) that
transitively depends on itself, yet elaborating the recipe set succeeds,
because only packages reachable from a root are elaborated and the cycle
checks run during that traversal. -/
theorem claim_C5_counterexample :
    Relation.TransGen (fun x y => dependsOnB cycRs x y = true) "a" "a"
    ∧ (match elaborate 9 cycRs ⟨[]⟩ false with
       | .ok res => res.pkg.packageName == ""
       | .error _ => false) = true :=
  ⟨@Relation.TransGen.head String (fun x y => dependsOnB cycRs x y = true)
      "a" "b" "a" (by decide) (Relation.TransGen.single (by decide)),
   by decide⟩

/-- C5 (amended): during elaboration the cycle checks fire exactly as the
code places them: `processDep` raises a cyclic-recipes error before
recursing when the dependency condition holds and the child`s name is on
the elaboration stack, and a memoization hit in `prepare` raises when the
stack intersects the cached sub-tree package set; an unreachable cycle in
the recipe set raises nothing. -/
theorem claim_C5_cycle_checks :
    (∀ (recurse : RecurseFn) (rs : RecipeSet) (r : ResolvedRecipe)
        (sandboxEnabled : Bool) (stack : List String) (ls : DepLoopState)
        (dep : Dependency) (child : ResolvedRecipe),
      evalCondOpt ls.env dep.condition = .ok true →
      rs.getRecipe dep.recipe = .ok child →
      stack.contains child.packageName = true →
      processDep recurse rs r sandboxEnabled stack ls dep
        = .error (ParseError.pushFrame
            ⟨"Recipes are cyclic (1st package in cylce)", []⟩ child.packageName))
    ∧ (∀ (fuel : Nat) (rs : RecipeSet) (r : ResolvedRecipe) (env : Env)
        (sbE : Bool) (sts : States) (sb : Option CoreSandbox) (tools : ToolMap)
        (stack : List String) (st : ElabState) (m : PackageMatcher),
      memoFind (stateMatchers st r.packageName) env.vars tools sts sb = some m →
      (listInter stack m.subTreePackages).isEmpty = false →
      prepare (fuel + 1) rs r env sbE sts sb tools stack st
        = .error ⟨"Recipes are cyclic", []⟩) := by
  constructor
  · intro recurse rs r sandboxEnabled stack ls dep child hcond hchild hstack
    unfold processDep
    rw [hcond]
    simp only [Bool.not_true, Bool.false_eq_true, if_false, ite_false]
    rw [hchild]
    simp only [hstack]
    simp
  · intro fuel rs r env sbE sts sb tools stack st m hm hstk
    unfold prepare
    rw [hm]
    simp [hstk]

/-- A dependency on recipe `a` with no condition. -/
def c5dep : Dependency := mkDependency "a" [] false ["result"] none

/-- A dependency-free leaf recipe. -/
def c5leafRaw : Recipe :=
  { emptyRecipe "leaf" with packageScript := some "t", packageDigestScript := some "t" }

/-- The resolved form of `c5leafRaw`. -/
def c5leafRR : ResolvedRecipe := rrOf (c5leafRaw.resolveClasses [] tpol)

/-- A recipe depending on `leaf`. -/
def c5parentRaw : Recipe :=
  { emptyRecipe "parent" with
      deps := [mkDependency "leaf" [] false ["result", "deps"] none]
      packageScript := some "t"
      packageDigestScript := some "t" }

/-- The resolved form of `c5parentRaw`. -/
def c5parentRR : ResolvedRecipe := rrOf (c5parentRaw.resolveClasses [] tpol)

/-- A recipe set with `parent` depending on `leaf`. -/
def c5rs : RecipeSet := trs [("leaf", c5leafRR), ("parent", c5parentRR)]

/-- A first elaboration of `parent`, caching its matcher. -/
def c5run : PrepResult :=
  resOf (prepare 5 c5rs c5parentRR ⟨[]⟩ false [] none [] [] ElabState.initial)

/-- The matcher cached for `parent`; its sub-tree holds `leaf`. -/
def c5mP : PackageMatcher := (stateMatchers c5run.state "parent").headD default

/-- An empty dependency-loop state. -/
def c5ls : DepLoopState :=
  ⟨[], [], [], [], [], [], ⟨[]⟩, [], none, ⟨[]⟩, [], none, [], [], [], [], [], ElabState.initial⟩

set_option maxRecDepth 200000 in
/-- Witness for C5: the stack check fires on a concrete dependency to a
stacked recipe, and the memo-hit check fires when the stack intersects the
cached sub-tree of `parent`. -/
theorem claim_C5_witness :
    (evalCondOpt c5ls.env c5dep.condition = .ok true
      ∧ cycRs.getRecipe "a" = .ok aRR
      ∧ ["a"].contains aRR.packageName = true
      ∧ processDep c10NoRecurse cycRs rootRR false ["a"] c5ls c5dep
          = .error (ParseError.pushFrame
              ⟨"Recipes are cyclic (1st package in cylce)", []⟩ aRR.packageName))
    ∧ (memoFind (stateMatchers c5run.state "parent") [] [] [] none = some c5mP
      ∧ (listInter ["leaf"] c5mP.subTreePackages).isEmpty = false
      ∧ prepare 1 c5rs c5parentRR ⟨[]⟩ false [] none [] ["leaf"] c5run.state
          = .error ⟨"Recipes are cyclic", []⟩) :=
  ⟨⟨rfl, rfl, rfl,
    claim_C5_cycle_checks.1 c10NoRecurse cycRs rootRR false ["a"] c5ls c5dep aRR
      rfl rfl rfl⟩,
   ⟨rfl, rfl,
    claim_C5_cycle_checks.2 0 c5rs c5parentRR ⟨[]⟩ false [] none [] ["leaf"]
      c5run.state c5mP rfl rfl⟩⟩


/-! ## C8: environment merge policy -/

/-- Policies with only `mergeEnvironment` enabled. -/
def c8polOn : Policies := ⟨true, false, false, false⟩

/-- A class defining environment key `K`. -/
def c8Class (vs : List (String × SValue)) : Recipe :=
  { emptyRecipe "c" with varSelf := vs }

/-- A recipe inheriting class `c` and defining `K` itself. -/
def c8Recipe (vs : List (String × SValue)) : Recipe :=
  { emptyRecipe "pkg" with inherit := ["c"], varSelf := vs }

set_option maxRecDepth 40000 in
/-- C8: when a recipe and an inherited class both define environment key
`K`, the `mergeEnvironment` policy keeps both dictionaries ordered
parent-first (`varSelf = [class, recipe]`), and applying them substitutes
the recipe`s dictionary against the environment already updated by the
class`s, so the child sees the parent`s value and the effective value is
child(parent(env)); with the policy off the dictionaries are merged
child-over-parent up front and only the child`s value is applied against
the original environment. -/
theorem claim_C8_merge_environment :
    (∀ pv cv : SValue,
      (rrOf ((c8Recipe [("K", cv)]).resolveClasses
          [("c", c8Class [("K", pv)])] c8polOn)).varSelf
        = [[("K", pv)], [("K", cv)]])
    ∧ (∀ pv cv : SValue,
      (rrOf ((c8Recipe [("K", cv)]).resolveClasses
          [("c", c8Class [("K", pv)])] tpol)).varSelf
        = [dictUpdate [("K", pv)] [("K", cv)]])
    ∧ (∀ (env : Env) (cvs rvs : List (String × SValue)),
      applyVarDicts env [cvs, rvs]
        = match substDict env cvs with
          | .error e => .error e
          | .ok vals => applyVarDicts (env.update vals) [rvs])
    ∧ applyVarDicts ⟨[("K", "e")]⟩ [[("K", SValue.lit "p")], [("K", SValue.var "K")]]
        = .ok ⟨[("K", "p")]⟩
    ∧ applyVarDicts ⟨[("K", "e")]⟩
          [dictUpdate [("K", SValue.lit "p")] [("K", SValue.var "K")]]
        = .ok ⟨[("K", "e")]⟩ :=
  ⟨fun _ _ => rfl, fun _ _ => rfl, fun _ _ _ => rfl, rfl, rfl⟩


/-! ## C7: unique result arguments -/

/-- How many refs in a result list point at a package step of the given
name. -/
def resCount (results : List CoreRef) (n : String) : Nat :=
  (results.filter (fun ref => ref.refGetDestination.packageName == n)).length

/-- Whether the tracker table says the named dependency`s result was
already consumed (1) or not (0). -/
def trackUsed (td : List (String × DepTracker)) (n : String) : Nat :=
  match dictGet td n with
  | some t => if t.usedResult then 1 else 0
  | none => 0

/-- The dependency-loop invariant: for every name, the build-step result
list holds exactly as many refs to that package as the `DepTracker` table
has recorded consumed results — one if `usedResult`, none otherwise. -/
def DepInv (ls : DepLoopState) : Prop :=
  ∀ n, resCount ls.results n = trackUsed ls.thisDeps n

/-- What `applyDepUses` does to `results`/`thisDeps` for a dependency
entry whose `use` is exactly `[result]` and that is not re-exported via
`provideDeps`: with a tracker whose result is already consumed nothing
changes; with an unconsumed tracker the ref is appended once and the
tracker marked consumed; without a tracker nothing is appended. -/
theorem applyDepUses_result_use (r : ResolvedRecipe) (sbE : Bool)
    (stack : List String) (ls : DepLoopState) (nm : String)
    (eo : List (String × String)) (fwd : Bool) (cond : Option CondExpr)
    (p : CorePackage) (dcs : CoreStep) (depRef : CoreRef)
    (hpd : r.provideDeps.contains nm = false) :
    applyDepUses r sbE stack ls (mkDependency nm eo fwd ["result"] cond) p dcs depRef
      = .ok (match dictGet ls.thisDeps nm with
             | some t =>
                if t.usedResult then ls
                else { ls with
                  results := ls.results ++ [depRef]
                  thisDeps := dictSet ls.thisDeps nm ⟨t.item, t.isNew, true⟩ }
             | none => ls) := by
  rw [show mkDependency nm eo fwd ["result"] cond
      = ⟨nm, eo, fwd, ["result"], false, false, true, false, false, cond⟩ from rfl]
  unfold applyDepUses
  simp only [hpd, Bool.false_eq_true, if_false, if_true, ite_false, ite_true]


/-- Unfold one lookup step on a literal head pair. -/
theorem dictGet_cons_mk {κ β : Type} [DecidableEq κ] (a : κ) (b : β)
    (l : List (κ × β)) (n : κ) :
    dictGet ((a, b) :: l) n = if a = n then some b else dictGet l n := rfl

/-- Unfold one lookup step. -/
theorem dictGet_cons {κ β : Type} [DecidableEq κ] (p : κ × β)
    (l : List (κ × β)) (n : κ) :
    dictGet (p :: l) n = if p.1 = n then some p.2 else dictGet l n := rfl

/-- Replacing key `k` in place does not change lookups of other keys. -/
theorem dictGet_map_replace_ne {κ β : Type} [DecidableEq κ]
    (m : List (κ × β)) (k n : κ) (v : β) (hk : k ≠ n) :
    dictGet (m.map (fun p => if p.1 = k then (k, v) else p)) n = dictGet m n := by
  induction m with
  | nil => rfl
  | cons p t ih =>
    rw [List.map_cons]
    by_cases hp : p.1 = k
    · rw [if_pos hp, dictGet_cons_mk, if_neg hk, ih, dictGet_cons,
        if_neg (fun hpn => hk (hp ▸ hpn))]
    · rw [if_neg hp, dictGet_cons, dictGet_cons, ih]

/-- A lookup that hits in the prefix ignores the appended tail. -/
theorem dictGet_append_left {κ β : Type} [DecidableEq κ]
    (m l : List (κ × β)) (n : κ) (w : β)
    (h : dictGet m n = some w) : dictGet (m ++ l) n = some w := by
  induction m with
  | nil => cases h
  | cons p t ih =>
    rw [List.cons_append, dictGet_cons]
    rw [dictGet_cons] at h
    by_cases hp : p.1 = n
    · rw [if_pos hp] at h ⊢
      exact h
    · rw [if_neg hp] at h ⊢
      exact ih h

/-- Lookup after `dictSet`: the written key reads the new value, all
others are unchanged. -/
theorem dictGet_dictSet {κ β : Type} [DecidableEq κ]
    (m : List (κ × β)) (k n : κ) (v : β) :
    dictGet (dictSet m k v) n = if k = n then some v else dictGet m n := by
  by_cases hk : k = n
  · subst hk
    rw [if_pos rfl, dictGet_dictSet_self]
  · rw [if_neg hk]
    unfold dictSet
    cases hc : (m.map Prod.fst).contains k with
    | true =>
      simp only [hc, if_true]
      exact dictGet_map_replace_ne m k n v hk
    | false =>
      simp only [hc, Bool.false_eq_true, if_false]
      cases hg : dictGet m n with
      | some w => exact dictGet_append_left m [(k, v)] n w hg
      | none =>
        rw [dictGet_append_of_none m [(k, v)] n hg, dictGet_cons_mk, if_neg hk]
        rfl

/-- Appending one ref raises the count of exactly its destination. -/
theorem resCount_append (res : List CoreRef) (ref : CoreRef) (n : String) :
    resCount (res ++ [ref]) n
      = resCount res n
        + (if ref.refGetDestination.packageName = n then 1 else 0) := by
  unfold resCount
  rw [List.filter_append]
  by_cases hx : ref.refGetDestination.packageName = n
  · simp [hx]
  · simp [hx]

/-- Setting one tracker only changes the consumed count of its name. -/
theorem trackUsed_set (td : List (String × DepTracker)) (k n : String)
    (t : DepTracker) :
    trackUsed (dictSet td k t) n
      = if k = n then (if t.usedResult then 1 else 0) else trackUsed td n := by
  unfold trackUsed
  rw [dictGet_dictSet]
  by_cases hk : k = n
  · rw [if_pos hk, if_pos hk]
  · rw [if_neg hk, if_neg hk]

/-- `applyDepUses` on a `use: [result]` entry preserves the invariant. -/
theorem applyDepUses_inv (r : ResolvedRecipe) (sbE : Bool)
    (stack : List String) (ls : DepLoopState) (nm : String)
    (eo : List (String × String)) (fwd : Bool) (cond : Option CondExpr)
    (p : CorePackage) (dcs : CoreStep) (depRef : CoreRef) (ls2 : DepLoopState)
    (hpd : r.provideDeps.contains nm = false)
    (hn : depRef.refGetDestination.packageName = nm)
    (h : applyDepUses r sbE stack ls (mkDependency nm eo fwd ["result"] cond)
          p dcs depRef = .ok ls2)
    (hinv : DepInv ls) : DepInv ls2 := by
  rw [applyDepUses_result_use r sbE stack ls nm eo fwd cond p dcs depRef hpd] at h
  cases hget : dictGet ls.thisDeps nm with
  | none =>
    rw [hget] at h
    cases Except.ok.inj h
    exact hinv
  | some t =>
    rw [hget] at h
    cases hused : t.usedResult with
    | true =>
      simp only [hused, if_true, ite_true] at h
      cases Except.ok.inj h
      exact hinv
    | false =>
      simp only [hused, Bool.false_eq_true, if_false, ite_false] at h
      cases Except.ok.inj h
      intro n
      show resCount (ls.results ++ [depRef]) n
        = trackUsed (dictSet ls.thisDeps nm ⟨t.item, t.isNew, true⟩) n
      rw [resCount_append, trackUsed_set, hn]
      by_cases hx : nm = n
      · subst hx
        have h0 := hinv nm
        rw [trackUsed, hget] at h0
        simp only [hused, Bool.false_eq_true, if_false, ite_false] at h0
        simp [h0]
      · have h0 := hinv n
        simp [hx, h0]


/-- Consumed count through a successful tracker lookup. -/
theorem trackUsed_some (td : List (String × DepTracker)) (n : String)
    (t : DepTracker) (h : dictGet td n = some t) :
    trackUsed td n = if t.usedResult then 1 else 0 := by
  unfold trackUsed
  rw [h]

/-- Consumed count of an untracked name. -/
theorem trackUsed_none (td : List (String × DepTracker)) (n : String)
    (h : dictGet td n = none) : trackUsed td n = 0 := by
  unfold trackUsed
  rw [h]

set_option maxHeartbeats 2000000 in
/-- One step of the indirect-package filter preserves the invariant: a
primed or unconsumed tracker appends the ref once and marks it consumed, a
consumed tracker appends nothing. -/
theorem processIndirectOne_inv (stack : List String) (ls : DepLoopState)
    (depRef : CoreRef) (ls2 : DepLoopState)
    (h : processIndirectOne stack ls depRef = .ok ls2)
    (hinv : DepInv ls) : DepInv ls2 := by
  unfold processIndirectOne at h
  unfold_let at h
  cases hget : dictGet ls.thisDeps depRef.refGetDestination.packageName with
  | none =>
    rw [hget] at h
    cases Except.ok.inj h
    intro n
    show resCount (ls.results ++ [depRef]) n
      = trackUsed (dictSet (dictSet (dictSet ls.thisDeps
            depRef.refGetDestination.packageName ⟨depRef, true, false⟩)
            depRef.refGetDestination.packageName ⟨depRef, false, false⟩)
            depRef.refGetDestination.packageName ⟨depRef, false, true⟩) n
    rw [resCount_append, trackUsed_set]
    by_cases hx : depRef.refGetDestination.packageName = n
    · rw [if_pos hx, if_pos hx]
      have h0 : resCount ls.results depRef.refGetDestination.packageName = 0 := by
        have h1 := hinv depRef.refGetDestination.packageName
        rw [trackUsed_none _ _ hget] at h1
        exact h1
      rw [hx] at h0
      rw [h0]
      rfl
    · rw [if_neg hx, if_neg hx, trackUsed_set, if_neg hx, trackUsed_set, if_neg hx,
        Nat.add_zero]
      exact hinv n
  | some t =>
    rw [hget] at h
    cases hin : t.isNew with
    | true =>
      cases hused : t.usedResult with
      | false =>
        simp only [hin, hused, Bool.not_true, Bool.not_false, Bool.false_eq_true,
          Bool.true_eq_false, eq_self_iff_true, if_true, if_false, ite_true,
          ite_false] at h
        cases Except.ok.inj h
        intro n
        show resCount (ls.results ++ [depRef]) n
          = trackUsed (dictSet (dictSet (dictSet ls.thisDeps
                depRef.refGetDestination.packageName t)
                depRef.refGetDestination.packageName ⟨t.item, false, false⟩)
                depRef.refGetDestination.packageName ⟨t.item, false, true⟩) n
        rw [resCount_append, trackUsed_set]
        by_cases hx : depRef.refGetDestination.packageName = n
        · rw [if_pos hx, if_pos hx]
          have h0 : resCount ls.results depRef.refGetDestination.packageName = 0 := by
            have h1 := hinv depRef.refGetDestination.packageName
            rw [trackUsed_some _ _ t hget, hused] at h1
            simpa using h1
          rw [hx] at h0
          rw [h0]
          rfl
        · rw [if_neg hx, if_neg hx, trackUsed_set, if_neg hx, trackUsed_set, if_neg hx,
            Nat.add_zero]
          exact hinv n
      | true =>
        simp only [hin, hused, Bool.not_true, Bool.not_false, Bool.false_eq_true,
          Bool.true_eq_false, eq_self_iff_true, if_true, if_false, ite_true,
          ite_false] at h
        cases Except.ok.inj h
        intro n
        show resCount ls.results n
          = trackUsed (dictSet (dictSet ls.thisDeps
                depRef.refGetDestination.packageName t)
                depRef.refGetDestination.packageName ⟨t.item, false, true⟩) n
        rw [trackUsed_set]
        by_cases hx : depRef.refGetDestination.packageName = n
        · rw [if_pos hx]
          have h0 : resCount ls.results depRef.refGetDestination.packageName = 1 := by
            have h1 := hinv depRef.refGetDestination.packageName
            rw [trackUsed_some _ _ t hget, hused] at h1
            simpa using h1
          rw [hx] at h0
          rw [h0]
          rfl
        · rw [if_neg hx, trackUsed_set, if_neg hx]
          exact hinv n
    | false =>
      by_cases hv : depRef.refGetDestination.variantId
          = t.item.refGetDestination.variantId
      · cases hused : t.usedResult with
        | false =>
          simp only [hin, hused, hv, ne_eq, not_true_eq_false, Bool.not_true,
            Bool.not_false, Bool.false_eq_true, Bool.true_eq_false,
            eq_self_iff_true, if_true, if_false, ite_true, ite_false] at h
          cases Except.ok.inj h
          intro n
          show resCount (ls.results ++ [depRef]) n
            = trackUsed (dictSet (dictSet (dictSet ls.thisDeps
                  depRef.refGetDestination.packageName t)
                  depRef.refGetDestination.packageName ⟨t.item, false, false⟩)
                  depRef.refGetDestination.packageName ⟨t.item, false, true⟩) n
          rw [resCount_append, trackUsed_set]
          by_cases hx : depRef.refGetDestination.packageName = n
          · rw [if_pos hx, if_pos hx]
            have h0 : resCount ls.results depRef.refGetDestination.packageName = 0 := by
              have h1 := hinv depRef.refGetDestination.packageName
              rw [trackUsed_some _ _ t hget, hused] at h1
              simpa using h1
            rw [hx] at h0
            rw [h0]
            rfl
          · rw [if_neg hx, if_neg hx, trackUsed_set, if_neg hx, trackUsed_set,
              if_neg hx, Nat.add_zero]
            exact hinv n
        | true =>
          simp only [hin, hused, hv, ne_eq, not_true_eq_false, Bool.not_true,
            Bool.not_false, Bool.false_eq_true, Bool.true_eq_false,
            eq_self_iff_true, if_true, if_false, ite_true, ite_false] at h
          cases Except.ok.inj h
          intro n
          show resCount ls.results n
            = trackUsed (dictSet (dictSet ls.thisDeps
                  depRef.refGetDestination.packageName t)
                  depRef.refGetDestination.packageName ⟨t.item, false, true⟩) n
          rw [trackUsed_set]
          by_cases hx : depRef.refGetDestination.packageName = n
          · rw [if_pos hx]
            have h0 : resCount ls.results depRef.refGetDestination.packageName = 1 := by
              have h1 := hinv depRef.refGetDestination.packageName
              rw [trackUsed_some _ _ t hget, hused] at h1
              simpa using h1
            rw [hx] at h0
            rw [h0]
            rfl
          · rw [if_neg hx, trackUsed_set, if_neg hx]
            exact hinv n
      · simp only [hin, hv, ne_eq, not_false_eq_true, Bool.false_eq_true,
          if_true, if_false, ite_true, ite_false] at h
        cases h


/-- The indirect-package filter loop preserves the invariant. -/
theorem processIndirect_inv (stack : List String) :
    ∀ (refs : List CoreRef) (ls ls2 : DepLoopState),
    processIndirect stack refs ls = .ok ls2 → DepInv ls → DepInv ls2 := by
  intro refs
  induction refs with
  | nil =>
    intro ls ls2 h hinv
    cases Except.ok.inj h
    exact hinv
  | cons r rs ih =>
    intro ls ls2 h hinv
    unfold processIndirect at h
    cases hx : processIndirectOne stack ls r with
    | error e =>
      rw [hx] at h
      cases h
    | ok ls1 =>
      rw [hx] at h
      exact ih ls1 ls2 h (processIndirectOne_inv stack ls r ls1 hx hinv)

/-- C7: a dependency name consumed with `use: [result]` contributes its
package step to the consuming build step`s `args` exactly once.  The
`DepTracker` table enforces this: `applyDepUses` appends the ref only when
the tracker is unconsumed and marks it consumed, one filter step of the
provided indirect deps does likewise, the whole indirect loop preserves
the invariant, and under the invariant every name has at most one ref in
`results`, exactly one once its tracker is marked consumed. -/
theorem claim_C7_result_once :
    (∀ (r : ResolvedRecipe) (sbE : Bool) (stack : List String) (ls : DepLoopState)
        (nm : String) (eo : List (String × String)) (fwd : Bool)
        (cond : Option CondExpr) (p : CorePackage) (dcs : CoreStep)
        (depRef : CoreRef),
      r.provideDeps.contains nm = false →
      applyDepUses r sbE stack ls (mkDependency nm eo fwd ["result"] cond) p dcs depRef
        = .ok (match dictGet ls.thisDeps nm with
               | some t =>
                  if t.usedResult then ls
                  else { ls with
                    results := ls.results ++ [depRef]
                    thisDeps := dictSet ls.thisDeps nm ⟨t.item, t.isNew, true⟩ }
               | none => ls))
    ∧ (∀ (r : ResolvedRecipe) (sbE : Bool) (stack : List String) (ls : DepLoopState)
        (nm : String) (eo : List (String × String)) (fwd : Bool)
        (cond : Option CondExpr) (p : CorePackage) (dcs : CoreStep)
        (depRef : CoreRef) (ls2 : DepLoopState),
      r.provideDeps.contains nm = false →
      depRef.refGetDestination.packageName = nm →
      applyDepUses r sbE stack ls (mkDependency nm eo fwd ["result"] cond) p dcs depRef
        = .ok ls2 →
      DepInv ls → DepInv ls2)
    ∧ (∀ (stack : List String) (ls : DepLoopState) (depRef : CoreRef)
        (ls2 : DepLoopState),
      processIndirectOne stack ls depRef = .ok ls2 → DepInv ls → DepInv ls2)
    ∧ (∀ (stack : List String) (refs : List CoreRef) (ls ls2 : DepLoopState),
      processIndirect stack refs ls = .ok ls2 → DepInv ls → DepInv ls2)
    ∧ (∀ (ls : DepLoopState) (n : String), DepInv ls →
      resCount ls.results n ≤ 1
        ∧ (∀ t, dictGet ls.thisDeps n = some t → t.usedResult = true →
            resCount ls.results n = 1)) :=
  ⟨applyDepUses_result_use,
   fun r sbE stack ls nm eo fwd cond p dcs depRef ls2 hpd hn h hinv =>
     applyDepUses_inv r sbE stack ls nm eo fwd cond p dcs depRef ls2 hpd hn h hinv,
   processIndirectOne_inv,
   processIndirect_inv,
   fun ls n hinv =>
     ⟨by
        rw [hinv n]
        unfold trackUsed
        cases dictGet ls.thisDeps n with
        | none => exact Nat.zero_le 1
        | some t => cases hu : t.usedResult <;> simp [hu],
      fun t hget hu => by
        rw [hinv n, trackUsed_some _ _ t hget, hu]
        rfl⟩⟩

/-- A ref to the default (empty-named) package step. -/
def c7ref : CoreRef := CoreRef.mk default []

/-- The loop state after one indirect-filter step from the empty state. -/
def c7step1 : DepLoopState :=
  match processIndirectOne [] c5ls c7ref with
  | .ok l => l
  | .error _ => c5ls

/-- Witness for C7 at the empty loop state: the first indirect-filter
step appends the ref once, the loop agrees, and counts stay at most one. -/
theorem claim_C7_witness :
    (rootRR.provideDeps.contains "" = false
      ∧ applyDepUses rootRR false [] c5ls (mkDependency "" [] false ["result"] none)
          default default c7ref = .ok c5ls)
    ∧ (c7ref.refGetDestination.packageName = ""
      ∧ applyDepUses rootRR false [] c5ls (mkDependency "" [] false ["result"] none)
          default default c7ref = .ok c5ls
      ∧ DepInv c5ls)
    ∧ (processIndirectOne [] c5ls c7ref = .ok c7step1 ∧ DepInv c7step1)
    ∧ (processIndirect [] [c7ref] c5ls = .ok c7step1)
    ∧ resCount c5ls.results "" ≤ 1 :=
  ⟨⟨rfl, claim_C7_result_once.1 rootRR false [] c5ls "" [] false none
      default default c7ref rfl⟩,
   ⟨rfl, rfl,
    claim_C7_result_once.2.1 rootRR false [] c5ls "" [] false none
      default default c7ref c5ls rfl rfl rfl (fun _ => rfl)⟩,
   ⟨rfl,
    claim_C7_result_once.2.2.1 [] c5ls c7ref c7step1 rfl (fun _ => rfl)⟩,
   rfl,
   (claim_C7_result_once.2.2.2.2 c5ls "" (fun _ => rfl)).1⟩

end Bob